import Mathlib

/-!
Verification of the DVMM (Domain View Model Mapper) example mappers.

The repository documents a convention of hand-written mapper classes that
translate between backend-shaped domain records and UI-shaped view records.
This file gives a shallow embedding of every example mapper shown in the
documentation (TodoMapper, AuthorMapper/PostMapper, AttachmentMapper/
MessageMapper, CategoryMapper/ProductMapper, UserMapper/TaskMapper/
ProjectMapper, RoleMapper and the user-management UserMapper) and of the
JavaScript primitives their bodies invoke:

* strings are Lean `String`s; JavaScript truthiness of a string is `s ≠ ""`,
  of `null`/`undefined` is false, and of any object (including an invalid
  `Date`) is true;
* a JavaScript `Date` is its time value: `none` models an Invalid Date (a
  NaN time value), `some t` models the instant `t` milliseconds from the
  Unix epoch; `new Date(string)` parses the ECMAScript Date Time String
  Format (other, implementation-defined inputs are modelled as Invalid),
  date-times without an offset are interpreted in UTC (a UTC host
  environment); `toISOString` throws a RangeError on an Invalid Date, so it
  is embedded with an `Except` result;
* finite JavaScript numbers are IEEE-754 binary64 values, modelled as
  exact rationals together with an explicit round-to-nearest-ties-even
  step (`roundDouble`) applied by every arithmetic operation the mappers
  perform (`/ 100`, `* 100`, the conversion inside `parseFloat`), so the
  double-rounding effects of the real program on large cent counts are
  captured; NaN is a separate constructor (`JSNum`);
* fallible code returns `Except`; code that cannot throw stays total.

The calendar arithmetic (`civilFromDays`, `daysFromCivil`) implements the
proleptic-Gregorian date↔day computations that ECMAScript specifies
mathematically for `Date`.
-/

/-! ## Decimal digits and fixed-width numerals -/

/-- The ASCII character of a decimal digit. -/
def digitChar (n : ℕ) : Char := Char.ofNat (48 + n)

/-- The numeric value of an ASCII decimal digit character, if it is one. -/
def digitVal (c : Char) : Option ℕ :=
  if '0' ≤ c ∧ c ≤ '9' then some (c.toNat - 48) else none

theorem digitVal_digitChar (n : ℕ) (h : n < 10) : digitVal (digitChar n) = some n := by
  interval_cases n <;> rfl

theorem digitChar_toNat (n : ℕ) (h : n < 10) : (digitChar n).toNat = 48 + n := by
  interval_cases n <;> rfl

theorem digitChar_isDigit (n : ℕ) (h : n < 10) : (digitChar n).isDigit = true := by
  interval_cases n <;> rfl

/-- Two zero-padded decimal digits, as printed by `Date.prototype.toISOString`. -/
def pad2 (n : ℕ) : List Char := [digitChar (n / 10), digitChar (n % 10)]

/-- Three zero-padded decimal digits (milliseconds field). -/
def pad3 (n : ℕ) : List Char :=
  [digitChar (n / 100), digitChar (n / 10 % 10), digitChar (n % 10)]

/-- Four zero-padded decimal digits (years 0000-9999). -/
def pad4 (n : ℕ) : List Char :=
  [digitChar (n / 1000), digitChar (n / 100 % 10), digitChar (n / 10 % 10), digitChar (n % 10)]

/-- Six zero-padded decimal digits (expanded years). -/
def pad6 (n : ℕ) : List Char :=
  [digitChar (n / 100000), digitChar (n / 10000 % 10), digitChar (n / 1000 % 10),
    digitChar (n / 100 % 10), digitChar (n / 10 % 10), digitChar (n % 10)]

/-- Fixed-width parse of two decimal digits. -/
def parse2 : List Char → Option (ℕ × List Char)
  | c1 :: c2 :: rest =>
    match digitVal c1, digitVal c2 with
    | some a, some b => some (10 * a + b, rest)
    | _, _ => none
  | _ => none

/-- Fixed-width parse of three decimal digits. -/
def parse3 : List Char → Option (ℕ × List Char)
  | c1 :: c2 :: c3 :: rest =>
    match digitVal c1, digitVal c2, digitVal c3 with
    | some a, some b, some c => some (100 * a + 10 * b + c, rest)
    | _, _, _ => none
  | _ => none

/-- Fixed-width parse of four decimal digits. -/
def parse4 : List Char → Option (ℕ × List Char)
  | c1 :: c2 :: c3 :: c4 :: rest =>
    match digitVal c1, digitVal c2, digitVal c3, digitVal c4 with
    | some a, some b, some c, some d => some (1000 * a + 100 * b + 10 * c + d, rest)
    | _, _, _, _ => none
  | _ => none

/-- Fixed-width parse of six decimal digits. -/
def parse6 : List Char → Option (ℕ × List Char)
  | c1 :: c2 :: c3 :: c4 :: c5 :: c6 :: rest =>
    match digitVal c1, digitVal c2, digitVal c3, digitVal c4, digitVal c5, digitVal c6 with
    | some a, some b, some c, some d, some e, some f =>
      some (100000 * a + 10000 * b + 1000 * c + 100 * d + 10 * e + f, rest)
    | _, _, _, _, _, _ => none
  | _ => none

theorem parse2_pad2 (n : ℕ) (h : n < 100) (rest : List Char) :
    parse2 (pad2 n ++ rest) = some (n, rest) := by
  simp only [pad2, List.cons_append, List.nil_append, parse2,
    digitVal_digitChar (n / 10) (by omega), digitVal_digitChar (n % 10) (by omega)]
  simp only [Option.some.injEq, Prod.mk.injEq, and_true]
  omega

theorem parse3_pad3 (n : ℕ) (h : n < 1000) (rest : List Char) :
    parse3 (pad3 n ++ rest) = some (n, rest) := by
  simp only [pad3, List.cons_append, List.nil_append, parse3,
    digitVal_digitChar (n / 100) (by omega), digitVal_digitChar (n / 10 % 10) (by omega),
    digitVal_digitChar (n % 10) (by omega)]
  simp only [Option.some.injEq, Prod.mk.injEq, and_true]
  omega

theorem parse4_pad4 (n : ℕ) (h : n < 10000) (rest : List Char) :
    parse4 (pad4 n ++ rest) = some (n, rest) := by
  simp only [pad4, List.cons_append, List.nil_append, parse4,
    digitVal_digitChar (n / 1000) (by omega), digitVal_digitChar (n / 100 % 10) (by omega),
    digitVal_digitChar (n / 10 % 10) (by omega), digitVal_digitChar (n % 10) (by omega)]
  simp only [Option.some.injEq, Prod.mk.injEq, and_true]
  omega

theorem parse6_pad6 (n : ℕ) (h : n < 1000000) (rest : List Char) :
    parse6 (pad6 n ++ rest) = some (n, rest) := by
  simp only [pad6, List.cons_append, List.nil_append, parse6,
    digitVal_digitChar (n / 100000) (by omega), digitVal_digitChar (n / 10000 % 10) (by omega),
    digitVal_digitChar (n / 1000 % 10) (by omega), digitVal_digitChar (n / 100 % 10) (by omega),
    digitVal_digitChar (n / 10 % 10) (by omega), digitVal_digitChar (n % 10) (by omega)]
  simp only [Option.some.injEq, Prod.mk.injEq, and_true]
  omega

/-! ## Decimal printing of a natural number (JavaScript `Number::toString`) -/

/-- Fuelled decimal printer; the fuel always suffices when it exceeds the
digit count. -/
def natPrintAux : ℕ → ℕ → List Char → List Char
  | 0, _, acc => acc
  | f + 1, n, acc =>
    if n < 10 then digitChar n :: acc
    else natPrintAux f (n / 10) (digitChar (n % 10) :: acc)

/-- Decimal numeral of a natural number, as JavaScript prints integral
numbers in base ten. -/
def natPrint (n : ℕ) : List Char := natPrintAux (n + 1) n []

theorem natPrintAux_succ (f n : ℕ) (acc : List Char) :
    natPrintAux (f + 1) n acc =
      if n < 10 then digitChar n :: acc
      else natPrintAux f (n / 10) (digitChar (n % 10) :: acc) := rfl

/-- Decimal value of a digit string (accumulator form). -/
def charsToNatAux : List Char → ℕ → ℕ
  | [], a => a
  | c :: cs, a => charsToNatAux cs (10 * a + (c.toNat - 48))

/-- Decimal value of a digit string. -/
def charsToNat (cs : List Char) : ℕ := charsToNatAux cs 0

theorem charsToNatAux_natPrintAux (f : ℕ) :
    ∀ n acc a, n < 10 ^ (f + 1) →
      charsToNatAux (natPrintAux (f + 1) n acc) a =
        charsToNatAux acc (a * 10 ^ (Nat.log 10 n + 1) + n) := by
  induction f with
  | zero =>
    intro n acc a h
    have hn : n < 10 := by omega
    rw [natPrintAux_succ, if_pos hn]
    simp only [charsToNatAux, digitChar_toNat n hn, Nat.log_eq_zero_iff.mpr (Or.inl hn)]
    congr 1
    omega
  | succ f ih =>
    intro n acc a h
    by_cases hn : n < 10
    · rw [natPrintAux_succ, if_pos hn]
      simp only [charsToNatAux, digitChar_toNat n hn, Nat.log_eq_zero_iff.mpr (Or.inl hn)]
      congr 1
      omega
    · have hdiv : n / 10 < 10 ^ (f + 1) := by
        have : 10 ^ (f + 1 + 1) = 10 ^ (f + 1) * 10 := by ring
        omega
      have hlog : Nat.log 10 n = Nat.log 10 (n / 10) + 1 := by
        have h1 := Nat.log_div_base 10 n
        have h2 : 0 < Nat.log 10 n := Nat.log_pos (by norm_num) (by omega)
        omega
      rw [natPrintAux_succ, if_neg hn]
      rw [ih (n / 10) (digitChar (n % 10) :: acc) a hdiv]
      simp only [charsToNatAux, digitChar_toNat (n % 10) (by omega), hlog,
        Nat.add_sub_cancel_left]
      congr 1
      have hqr : n = 10 * (n / 10) + n % 10 := by omega
      set q := n / 10 with hq
      set r := n % 10 with hr
      set P := (10 : ℕ) ^ (Nat.log 10 q + 1) with hP
      have hpow : (10 : ℕ) ^ (Nat.log 10 q + 1 + 1) = P * 10 := by rw [hP, pow_succ]
      rw [hpow, hqr]
      ring

theorem charsToNat_natPrint (n : ℕ) : charsToNat (natPrint n) = n := by
  have hlt : n < 10 ^ (n + 1) := by
    calc n < 10 ^ n := Nat.lt_pow_self (by norm_num) n
    _ ≤ 10 ^ (n + 1) := Nat.pow_le_pow_right (by norm_num) (by omega)
  have := charsToNatAux_natPrintAux n n [] 0 hlt
  simpa [charsToNat, natPrint, charsToNatAux] using this

theorem natPrintAux_all_digits (f : ℕ) :
    ∀ n acc, (∀ c ∈ acc, c.isDigit = true) →
      ∀ c ∈ natPrintAux f n acc, c.isDigit = true := by
  induction f with
  | zero => intro n acc hacc c hc; exact hacc c hc
  | succ f ih =>
    intro n acc hacc c hc
    rw [natPrintAux_succ] at hc
    split at hc
    · simp only [List.mem_cons] at hc
      rcases hc with hc | hc
      · exact hc ▸ digitChar_isDigit n (by omega)
      · exact hacc c hc
    · refine ih (n / 10) (digitChar (n % 10) :: acc) ?_ c hc
      intro c' hc'
      simp only [List.mem_cons] at hc'
      rcases hc' with hc' | hc'
      · exact hc' ▸ digitChar_isDigit (n % 10) (by omega)
      · exact hacc c' hc'

theorem natPrint_all_digits (n : ℕ) : ∀ c ∈ natPrint n, c.isDigit = true :=
  natPrintAux_all_digits (n + 1) n [] (by simp)

theorem natPrintAux_ne_nil (f : ℕ) : ∀ n acc, natPrintAux (f + 1) n acc ≠ [] := by
  induction f with
  | zero =>
    intro n acc
    rw [natPrintAux_succ]
    split <;> simp [natPrintAux]
  | succ f ih =>
    intro n acc
    rw [natPrintAux_succ]
    split
    · simp
    · exact ih (n / 10) (digitChar (n % 10) :: acc)

theorem natPrint_ne_nil (n : ℕ) : natPrint n ≠ [] := natPrintAux_ne_nil n n []

/-! ## Proleptic-Gregorian calendar arithmetic (ECMAScript `Date` computations) -/


def isLeap (y : Int) : Bool := decide (y % 4 = 0 ∧ (¬ y % 100 = 0 ∨ y % 400 = 0))

def daysInMonth (y m : Int) : Int :=
  if m = 2 then (if isLeap y then 29 else 28)
  else if m = 4 ∨ m = 6 ∨ m = 9 ∨ m = 11 then 30
  else 31

def civilFromDays (z : Int) : Int × Int × Int :=
  let era := (z + 719468) / 146097
  let doe := (z + 719468) % 146097
  let yoe := (doe - doe / 1460 + doe / 36524 - doe / 146096) / 365
  let doy := doe - (365 * yoe + yoe / 4 - yoe / 100)
  let mp := (5 * doy + 2) / 153
  let d := doy - (153 * mp + 2) / 5 + 1
  let m := if mp < 10 then mp + 3 else mp - 9
  (yoe + era * 400 + (if m ≤ 2 then 1 else 0), m, d)

def daysFromCivil (y m d : Int) : Int :=
  let y' := if m ≤ 2 then y - 1 else y
  let era := y' / 400
  let yoe := y' - era * 400
  let doy := (153 * (if m > 2 then m - 3 else m + 9) + 2) / 5 + d - 1
  let doe := yoe * 365 + yoe / 4 - yoe / 100 + doy
  era * 146097 + doe - 719468

example : civilFromDays 20259 = (2025, 6, 20) := by decide
example : daysFromCivil 2025 6 20 = 20259 := by decide

theorem doy_bounds (n yoe : Int) (h0 : 0 ≤ n) (h1 : n ≤ 146096)
    (hyoe : yoe = (n - n / 1460 + n / 36524 - n / 146096) / 365) :
    0 ≤ n - (365 * yoe + yoe / 4 - yoe / 100) ∧
    n - (365 * yoe + yoe / 4 - yoe / 100) ≤ 365 := by
  have hc : n / 36524 = 0 ∨ n / 36524 = 1 ∨ n / 36524 = 2 ∨ n / 36524 = 3 ∨ n = 146096 := by
    omega
  rcases hc with hc | hc | hc | hc | hc
  · have he : n / 146096 = 0 := by omega
    obtain ⟨k, hk1, hk2, hk3⟩ : ∃ k : Int, n / 1460 = k ∧ 0 ≤ k ∧ k ≤ 25 :=
      ⟨n / 1460, rfl, by omega, by omega⟩
    interval_cases k <;> omega
  · have he : n / 146096 = 0 := by omega
    obtain ⟨k, hk1, hk2, hk3⟩ : ∃ k : Int, n / 1460 = k ∧ 25 ≤ k ∧ k ≤ 50 :=
      ⟨n / 1460, rfl, by omega, by omega⟩
    interval_cases k <;> omega
  · have he : n / 146096 = 0 := by omega
    obtain ⟨k, hk1, hk2, hk3⟩ : ∃ k : Int, n / 1460 = k ∧ 50 ≤ k ∧ k ≤ 75 :=
      ⟨n / 1460, rfl, by omega, by omega⟩
    interval_cases k <;> omega
  · have he : n / 146096 = 0 := by omega
    obtain ⟨k, hk1, hk2, hk3⟩ : ∃ k : Int, n / 1460 = k ∧ 75 ≤ k ∧ k ≤ 100 :=
      ⟨n / 1460, rfl, by omega, by omega⟩
    interval_cases k <;> omega
  · subst hc
    omega

theorem leap_slot (y : ℕ) (hy : y < 400)
    (h : ((365 * y + y / 4 - y / 100 + 365) - (365 * y + y / 4 - y / 100 + 365) / 1460 +
          (365 * y + y / 4 - y / 100 + 365) / 36524 -
          (365 * y + y / 4 - y / 100 + 365) / 146096) / 365 = y) :
    (y + 1) % 4 = 0 ∧ ((y + 1) % 100 ≠ 0 ∨ (y + 1) % 400 = 0) := by
  revert h
  revert hy
  revert y
  set_option maxRecDepth 4000 in decide

theorem doy_leap_nat (n y : ℕ) (hn : n ≤ 146096)
    (hy : (n - n / 1460 + n / 36524 - n / 146096) / 365 = y)
    (h : n = 365 * y + y / 4 - y / 100 + 365) :
    (y + 1) % 4 = 0 ∧ ((y + 1) % 100 ≠ 0 ∨ (y + 1) % 400 = 0) := by
  subst h
  exact leap_slot y (by omega) hy

theorem doy_leap (n yoe : Int) (h0 : 0 ≤ n) (h1 : n ≤ 146096)
    (hyoe : yoe = (n - n / 1460 + n / 36524 - n / 146096) / 365) :
    n - (365 * yoe + yoe / 4 - yoe / 100) = 365 →
    (yoe + 1) % 4 = 0 ∧ (¬ (yoe + 1) % 100 = 0 ∨ (yoe + 1) % 400 = 0) := by
  intro h365
  obtain ⟨m, rfl⟩ : ∃ m : ℕ, n = (m : Int) := ⟨n.toNat, by omega⟩
  have hy0 : 0 ≤ yoe := by omega
  obtain ⟨y, rfl⟩ : ∃ y : ℕ, yoe = (y : Int) := ⟨yoe.toNat, by omega⟩
  have := doy_leap_nat m y (by omega) (by omega) (by omega)
  omega

set_option maxHeartbeats 2000000 in
theorem daysFromCivil_civilFromDays (z : Int) :
    daysFromCivil (civilFromDays z).1 (civilFromDays z).2.1 (civilFromDays z).2.2 = z := by
  simp only [civilFromDays, daysFromCivil]
  generalize hE : (z + 719468) / 146097 = E
  generalize hN : (z + 719468) % 146097 = N
  have h0 : 0 ≤ N := by omega
  have h1 : N ≤ 146096 := by omega
  generalize hY : (N - N / 1460 + N / 36524 - N / 146096) / 365 = Y
  have hb := doy_bounds N Y h0 h1 hY.symm
  have hyb : 0 ≤ Y ∧ Y ≤ 399 := by omega
  generalize hMP : (5 * (N - (365 * Y + Y / 4 - Y / 100)) + 2) / 153 = MP
  have hmpb : 0 ≤ MP ∧ MP ≤ 11 := by omega
  have e1 : ∀ a b : Int, a + b - b = a := fun a b => by ring
  have e2 : ∀ a : Int, a + 0 = a := fun a => by ring
  have e3 : ∀ a b : Int, a - b + b = a := fun a b => by ring
  have hdiv : (Y + E * 400) / 400 = E := by omega
  split_ifs <;>
    simp only [e1, e2, e3] <;>
    rw [hdiv] <;>
    simp only [e1, e2, e3] <;>
    omega

set_option maxHeartbeats 2000000 in
theorem valid_core (N E Y MP M D YR : Int) (h0 : 0 ≤ N) (h1 : N ≤ 146096)
    (hY : Y = (N - N / 1460 + N / 36524 - N / 146096) / 365)
    (hMP : MP = (5 * (N - (365 * Y + Y / 4 - Y / 100)) + 2) / 153)
    (hM : M = if MP < 10 then MP + 3 else MP - 9)
    (hD : D = N - (365 * Y + Y / 4 - Y / 100) - (153 * MP + 2) / 5 + 1)
    (hYR : YR = Y + E * 400 + (if M ≤ 2 then 1 else 0)) :
    1 ≤ M ∧ M ≤ 12 ∧ 1 ≤ D ∧ D ≤ daysInMonth YR M := by
  have hb := doy_bounds N Y h0 h1 hY
  have hyb : 0 ≤ Y ∧ Y ≤ 399 := by clear hMP hM hD hYR; omega
  have hl := doy_leap N Y h0 h1 hY
  have hmpb : 0 ≤ MP ∧ MP ≤ 11 := by clear hM hD hYR; omega
  have hdisj : N - (365 * Y + Y / 4 - Y / 100) ≤ 364 ∨
      (N - (365 * Y + Y / 4 - Y / 100) = 365 ∧
        ((Y + 1) % 4 = 0 ∧ (¬ (Y + 1) % 100 = 0 ∨ (Y + 1) % 400 = 0))) := by
    by_cases h365 : N - (365 * Y + Y / 4 - Y / 100) = 365
    · exact Or.inr ⟨h365, hl h365⟩
    · exact Or.inl (by clear hMP hM hD hYR; omega)
  clear hl
  obtain ⟨hmp0, hmp11⟩ := hmpb
  interval_cases MP <;> subst hM <;> subst hYR <;>
    simp only [daysInMonth, isLeap, decide_eq_true_eq] <;>
    norm_num <;>
    omega

theorem civilFromDays_valid (z : Int) :
    1 ≤ (civilFromDays z).2.1 ∧ (civilFromDays z).2.1 ≤ 12 ∧
    1 ≤ (civilFromDays z).2.2 ∧
    (civilFromDays z).2.2 ≤ daysInMonth (civilFromDays z).1 (civilFromDays z).2.1 := by
  exact valid_core ((z + 719468) % 146097) ((z + 719468) / 146097) _ _ _ _ _
    (by omega) (by omega) rfl rfl rfl rfl rfl

/-! ## The ECMAScript Date Time String Format -/

/-- The largest time value of a JavaScript `Date`: 8.64e15 milliseconds. -/
def maxTimeValue : Int := 8640000000000000

/-- The year field of `toISOString`: four padded digits for years 0-9999,
otherwise an expanded six-digit year with an explicit sign. -/
def yearChars (y : Int) : List Char :=
  if 0 ≤ y ∧ y ≤ 9999 then pad4 y.toNat
  else if 9999 < y then '+' :: pad6 y.toNat
  else '-' :: pad6 (-y).toNat

/-- The characters of `Date.prototype.toISOString` for the time value `t`:
`YYYY-MM-DDTHH:mm:ss.sssZ`, with an expanded year where needed. -/
def isoChars (t : Int) : List Char :=
  yearChars (civilFromDays (t / 86400000)).1 ++
    ('-' :: (pad2 (civilFromDays (t / 86400000)).2.1.toNat ++
      ('-' :: (pad2 (civilFromDays (t / 86400000)).2.2.toNat ++
        ('T' :: (pad2 ((t % 86400000).toNat / 3600000) ++
          (':' :: (pad2 ((t % 86400000).toNat / 60000 % 60) ++
            (':' :: (pad2 ((t % 86400000).toNat / 1000 % 60) ++
              ('.' :: (pad3 ((t % 86400000).toNat % 1000) ++ ['Z']))))))))))))

/-- `Date.prototype.toISOString` on a finite time value. -/
def isoString (t : Int) : String := ⟨isoChars t⟩

/-- Milliseconds within a day from parsed time fields, validating the field
ranges of the Date Time String Format (including the `24:00` end-of-day
form). -/
def mkTimeMs (h mi s ms : ℕ) : Option ℕ :=
  if (h ≤ 23 ∨ (h = 24 ∧ mi = 0 ∧ s = 0 ∧ ms = 0)) ∧ mi ≤ 59 ∧ s ≤ 59 then
    some (h * 3600000 + mi * 60000 + s * 1000 + ms)
  else none

/-- Parse the optional `.sss` milliseconds part and validate the time
fields. -/
def parseTimeMs (h mi s : ℕ) (cs : List Char) : Option (ℕ × List Char) :=
  match cs with
  | '.' :: r6 =>
    match parse3 r6 with
    | some (ms, r7) =>
      match mkTimeMs h mi s ms with
      | some tm => some (tm, r7)
      | none => none
    | none => none
  | _ =>
    match mkTimeMs h mi s 0 with
    | some tm => some (tm, cs)
    | none => none

/-- Parse the optional `:ss` seconds part. -/
def parseTimeSec (h mi : ℕ) (cs : List Char) : Option (ℕ × List Char) :=
  match cs with
  | ':' :: r4 =>
    match parse2 r4 with
    | some (s, r5) => parseTimeMs h mi s r5
    | none => none
  | _ =>
    match mkTimeMs h mi 0 0 with
    | some tm => some (tm, cs)
    | none => none

/-- Parse the mandatory `:mm` minutes part. -/
def parseTimeMin (h : ℕ) (cs : List Char) : Option (ℕ × List Char) :=
  match cs with
  | ':' :: r2 =>
    match parse2 r2 with
    | some (mi, r3) => parseTimeSec h mi r3
    | none => none
  | _ => none

/-- Parse `HH:mm`, `HH:mm:ss` or `HH:mm:ss.sss`. -/
def parseTime (cs : List Char) : Option (ℕ × List Char) :=
  match parse2 cs with
  | some (h, r1) => parseTimeMin h r1
  | none => none

/-- Parse the `±HH:mm` body of a timezone offset designator, which must end
the string; the result is the offset in milliseconds. -/
def parseOffHM (cs : List Char) : Option ℕ :=
  match parse2 cs with
  | none => none
  | some (h, r1) =>
    match r1 with
    | ':' :: r2 =>
      match parse2 r2 with
      | none => none
      | some (mi, r3) =>
        if r3 = [] ∧ h ≤ 23 ∧ mi ≤ 59 then some (h * 3600000 + mi * 60000) else none
    | _ => none

/-- Parse the optional timezone offset that ends a date-time string; an
absent offset is interpreted as UTC (the modelled host timezone). -/
def parseTZ (cs : List Char) : Option Int :=
  match cs with
  | [] => some 0
  | ['Z'] => some 0
  | '+' :: rest => (parseOffHM rest).map (fun o => (o : Int))
  | '-' :: rest => (parseOffHM rest).map (fun o => -(o : Int))
  | _ => none

/-- Parse the year field: four digits, or a sign followed by six digits;
`-000000` is rejected as the format requires. -/
def parseYear (cs : List Char) : Option (Int × List Char) :=
  match cs with
  | [] => none
  | c :: rest =>
    if c = '+' then
      match parse6 rest with
      | some (y, r) => some ((y : Int), r)
      | none => none
    else if c = '-' then
      match parse6 rest with
      | some (y, r) => if y = 0 then none else some (-(y : Int), r)
      | none => none
    else
      match parse4 cs with
      | some (y, r) => some ((y : Int), r)
      | none => none

/-- Combine parsed date fields, time-of-day milliseconds and offset into a
time value, rejecting values outside the representable `Date` range. -/
def finishDT (y mo d : Int) (tm : ℕ) (off : Int) : Option Int :=
  let t := daysFromCivil y mo d * 86400000 + tm - off
  if -8640000000000000 ≤ t ∧ t ≤ 8640000000000000 then some t else none

/-- Parse the time-and-offset part that follows `T`. -/
def parseTimeTZ (y mo d : Int) (cs : List Char) : Option Int :=
  match parseTime cs with
  | none => none
  | some (tm, rest) =>
    match parseTZ rest with
    | none => none
    | some off => finishDT y mo d tm off

/-- Continue a date parse after `YYYY-MM-DD`. -/
def parseAfterDay (y mo d : Int) (cs : List Char) : Option Int :=
  match cs with
  | [] => finishDT y mo d 0 0
  | 'T' :: r => parseTimeTZ y mo d r
  | _ => none

/-- Continue a date parse after `YYYY-MM`. -/
def parseAfterMonth (y mo : Int) (cs : List Char) : Option Int :=
  match cs with
  | [] => finishDT y mo 1 0 0
  | 'T' :: r => parseTimeTZ y mo 1 r
  | '-' :: r =>
    match parse2 r with
    | none => none
    | some (d, r5) =>
      if 1 ≤ d ∧ (d : Int) ≤ daysInMonth y mo then parseAfterDay y mo (d : Int) r5
      else none
  | _ => none

/-- Continue a date parse after the year field. -/
def parseAfterYear (y : Int) (cs : List Char) : Option Int :=
  match cs with
  | [] => finishDT y 1 1 0 0
  | 'T' :: r => parseTimeTZ y 1 1 r
  | '-' :: r =>
    match parse2 r with
    | none => none
    | some (mo, r3) =>
      if 1 ≤ mo ∧ mo ≤ 12 then parseAfterMonth y (mo : Int) r3 else none
  | _ => none

/-- Parse of the ECMAScript Date Time String Format:
`YYYY[-MM[-DD]][THH:mm[:ss[.sss]][Z|±HH:mm]]` over the characters of the
input, with month, day and field-range validation; any non-conforming
string yields `none` (an Invalid Date). -/
def parseISOChars (cs : List Char) : Option Int :=
  match parseYear cs with
  | none => none
  | some (y, r1) => parseAfterYear y r1

/-- `Date.parse` restricted to the specified Date Time String Format; the
implementation-defined fallback for other formats is modelled as failure. -/
def parseISO (s : String) : Option Int := parseISOChars s.data

example : parseISO "2025-06-20T12:00:00Z" = some 1750420800000 := by decide
example : parseISO "2025-06-20T12:00:00.000Z" = some 1750420800000 := by decide
example : parseISO "2025-06-01T10:00:00Z" = some 1748772000000 := by decide
example : parseISO "" = none := by decide
example : parseISO "not-a-date" = none := by decide
example : parseISO "2025-02-30T00:00:00Z" = none := by decide
example : parseISO "2024-02-29" = some 1709164800000 := by decide
example : isoString 1750420800000 = "2025-06-20T12:00:00.000Z" := by decide
example : isoString 0 = "1970-01-01T00:00:00.000Z" := by decide

/-! ## Parsing a canonical ISO string recovers the time value -/

theorem pad4_cons (n : ℕ) (rest : List Char) :
    pad4 n ++ rest =
      digitChar (n / 1000) :: digitChar (n / 100 % 10) :: digitChar (n / 10 % 10) ::
        digitChar (n % 10) :: rest := rfl

theorem digitChar_ne_plus (n : ℕ) (h : n < 10) : digitChar n ≠ '+' := by
  interval_cases n <;> decide

theorem digitChar_ne_minus (n : ℕ) (h : n < 10) : digitChar n ≠ '-' := by
  interval_cases n <;> decide

theorem parseYear_yearChars (y : Int) (h1 : -999999 ≤ y) (h2 : y ≤ 999999) (rest : List Char) :
    parseYear (yearChars y ++ rest) = some (y, rest) := by
  unfold yearChars
  split_ifs with ha hb
  · rw [pad4_cons]
    simp only [parseYear, if_neg (digitChar_ne_plus (y.toNat / 1000) (by omega)),
      if_neg (digitChar_ne_minus (y.toNat / 1000) (by omega))]
    rw [← pad4_cons, parse4_pad4 y.toNat (by omega) rest]
    show some (((y.toNat : ℕ) : Int), rest) = some (y, rest)
    simp only [Option.some.injEq, Prod.mk.injEq, and_true]
    omega
  · simp only [List.cons_append, parseYear, if_pos rfl]
    rw [parse6_pad6 y.toNat (by omega) rest]
    show some (((y.toNat : ℕ) : Int), rest) = some (y, rest)
    simp only [Option.some.injEq, Prod.mk.injEq, and_true]
    omega
  · simp only [List.cons_append, parseYear]
    rw [if_neg (show ¬('-' = '+') from by decide)]
    simp only [if_true]
    rw [parse6_pad6 (-y).toNat (by omega) rest]
    show (if (-y).toNat = 0 then none else some (-(((-y).toNat : ℕ) : Int), rest)) =
      some (y, rest)
    rw [if_neg (by omega)]
    simp only [Option.some.injEq, Prod.mk.injEq, and_true]
    omega

theorem parseTime_pad2 (h : ℕ) (hlt : h < 100) (r : List Char) :
    parseTime (pad2 h ++ r) = parseTimeMin h r := by
  simp only [parseTime]
  rw [parse2_pad2 h hlt]

theorem parseTimeMin_colon (h mi : ℕ) (hlt : mi < 100) (r : List Char) :
    parseTimeMin h (':' :: (pad2 mi ++ r)) = parseTimeSec h mi r := by
  rw [show parseTimeMin h (':' :: (pad2 mi ++ r)) =
      (match parse2 (pad2 mi ++ r) with
        | some (mi, r3) => parseTimeSec h mi r3
        | none => none) from rfl]
  rw [parse2_pad2 mi hlt]

theorem parseTimeSec_colon (h mi s : ℕ) (hlt : s < 100) (r : List Char) :
    parseTimeSec h mi (':' :: (pad2 s ++ r)) = parseTimeMs h mi s r := by
  rw [show parseTimeSec h mi (':' :: (pad2 s ++ r)) =
      (match parse2 (pad2 s ++ r) with
        | some (s, r5) => parseTimeMs h mi s r5
        | none => none) from rfl]
  rw [parse2_pad2 s hlt]

theorem parseTimeMs_dot (h mi s ms : ℕ) (hh : h ≤ 23) (hmi : mi ≤ 59) (hs : s ≤ 59)
    (hms : ms < 1000) (r : List Char) :
    parseTimeMs h mi s ('.' :: (pad3 ms ++ r)) =
      some (h * 3600000 + mi * 60000 + s * 1000 + ms, r) := by
  rw [show parseTimeMs h mi s ('.' :: (pad3 ms ++ r)) =
      (match parse3 (pad3 ms ++ r) with
        | some (ms, r7) =>
          match mkTimeMs h mi s ms with
          | some tm => some (tm, r7)
          | none => none
        | none => none) from rfl]
  rw [parse3_pad3 ms hms]
  show (match mkTimeMs h mi s ms with
    | some tm => some (tm, r)
    | none => none) = some (h * 3600000 + mi * 60000 + s * 1000 + ms, r)
  rw [show mkTimeMs h mi s ms = some (h * 3600000 + mi * 60000 + s * 1000 + ms) from by
    simp only [mkTimeMs]
    rw [if_pos ⟨Or.inl hh, hmi, hs⟩]]

theorem parseTime_iso (h mi s ms : ℕ) (hh : h ≤ 23) (hmi : mi ≤ 59) (hs : s ≤ 59)
    (hms : ms < 1000) (r : List Char) :
    parseTime (pad2 h ++ (':' :: (pad2 mi ++ (':' :: (pad2 s ++ ('.' :: (pad3 ms ++ r))))))) =
      some (h * 3600000 + mi * 60000 + s * 1000 + ms, r) := by
  rw [parseTime_pad2 h (by omega), parseTimeMin_colon h mi (by omega),
    parseTimeSec_colon h mi s (by omega), parseTimeMs_dot h mi s ms hh hmi hs hms]

theorem parseTimeTZ_iso (y mo d : Int) (h mi s ms : ℕ) (hh : h ≤ 23) (hmi : mi ≤ 59)
    (hs : s ≤ 59) (hms : ms < 1000) :
    parseTimeTZ y mo d
        (pad2 h ++ (':' :: (pad2 mi ++ (':' :: (pad2 s ++ ('.' :: (pad3 ms ++ ['Z']))))))) =
      finishDT y mo d (h * 3600000 + mi * 60000 + s * 1000 + ms) 0 := by
  simp only [parseTimeTZ]
  rw [parseTime_iso h mi s ms hh hmi hs hms]
  rfl

theorem parseAfterYear_month (y : Int) (mo : ℕ) (hlt : mo < 100) (h12 : 1 ≤ mo ∧ mo ≤ 12)
    (r : List Char) :
    parseAfterYear y ('-' :: (pad2 mo ++ r)) = parseAfterMonth y (mo : Int) r := by
  rw [show parseAfterYear y ('-' :: (pad2 mo ++ r)) =
      (match parse2 (pad2 mo ++ r) with
        | none => none
        | some (mo, r3) =>
          if 1 ≤ mo ∧ mo ≤ 12 then parseAfterMonth y (mo : Int) r3 else none) from rfl]
  rw [parse2_pad2 mo hlt]
  exact if_pos h12

theorem parseAfterMonth_day (y mo : Int) (d : ℕ) (hlt : d < 100)
    (hd : 1 ≤ d ∧ (d : Int) ≤ daysInMonth y mo) (r : List Char) :
    parseAfterMonth y mo ('-' :: (pad2 d ++ r)) = parseAfterDay y mo (d : Int) r := by
  rw [show parseAfterMonth y mo ('-' :: (pad2 d ++ r)) =
      (match parse2 (pad2 d ++ r) with
        | none => none
        | some (d, r5) =>
          if 1 ≤ d ∧ (d : Int) ≤ daysInMonth y mo then parseAfterDay y mo (d : Int) r5
          else none) from rfl]
  rw [parse2_pad2 d hlt]
  exact if_pos hd

theorem daysInMonth_le31 (y m : Int) : daysInMonth y m ≤ 31 := by
  simp only [daysInMonth]
  split_ifs <;> omega

set_option maxHeartbeats 1000000 in
theorem civilFromDays_year_range (z : Int) (hlo : -100000002 ≤ z) (hhi : z ≤ 100000002) :
    -999999 ≤ (civilFromDays z).1 ∧ (civilFromDays z).1 ≤ 999999 := by
  have hyb : 0 ≤ ((z + 719468) % 146097 - (z + 719468) % 146097 / 1460 +
        (z + 719468) % 146097 / 36524 - (z + 719468) % 146097 / 146096) / 365 ∧
      ((z + 719468) % 146097 - (z + 719468) % 146097 / 1460 +
        (z + 719468) % 146097 / 36524 - (z + 719468) % 146097 / 146096) / 365 ≤ 399 := by
    omega
  simp only [civilFromDays]
  split_ifs <;> omega

set_option maxHeartbeats 1000000 in
theorem parseISOChars_isoChars (t : Int) (h1 : -8640000000000000 ≤ t)
    (h2 : t ≤ 8640000000000000) : parseISOChars (isoChars t) = some t := by
  have hv := civilFromDays_valid (t / 86400000)
  have hrt := daysFromCivil_civilFromDays (t / 86400000)
  have hyr := civilFromDays_year_range (t / 86400000) (by omega) (by omega)
  simp only [parseISOChars, isoChars]
  set Y := (civilFromDays (t / 86400000)).1 with hYdef
  set MO := (civilFromDays (t / 86400000)).2.1 with hMOdef
  set DD := (civilFromDays (t / 86400000)).2.2 with hDDdef
  obtain ⟨hm1, hm2, hd1, hd2⟩ := hv
  have hd31 : DD ≤ 31 := le_trans hd2 (daysInMonth_le31 Y MO)
  have hmo : ((MO.toNat : ℕ) : Int) = MO := Int.toNat_of_nonneg (by omega)
  have hdd : ((DD.toNat : ℕ) : Int) = DD := Int.toNat_of_nonneg (by omega)
  rw [parseYear_yearChars Y (by omega) (by omega)]
  change parseAfterYear Y _ = some t
  rw [parseAfterYear_month Y MO.toNat (by omega) (by omega), hmo]
  rw [parseAfterMonth_day Y MO DD.toNat (by omega) ⟨by omega, by rw [hdd]; exact hd2⟩, hdd]
  change parseTimeTZ Y MO DD _ = some t
  rw [parseTimeTZ_iso Y MO DD _ _ _ _ (by omega) (by omega) (by omega) (by omega)]
  simp only [finishDT, hrt]
  rw [if_pos (⟨by omega, by omega⟩ : _ ∧ _)]
  simp only [Option.some.injEq]
  omega

/-! ## Every successful parse yields a representable time value -/

theorem finishDT_range (y mo d : Int) (tm : ℕ) (off t : Int)
    (h : finishDT y mo d tm off = some t) :
    -8640000000000000 ≤ t ∧ t ≤ 8640000000000000 := by
  simp only [finishDT] at h
  split_ifs at h with hc
  exact (Option.some.inj h) ▸ hc

theorem parseTimeTZ_range (y mo d : Int) (cs : List Char) (t : Int)
    (h : parseTimeTZ y mo d cs = some t) :
    -8640000000000000 ≤ t ∧ t ≤ 8640000000000000 := by
  unfold parseTimeTZ at h
  split at h
  · cases h
  · split at h
    · cases h
    · exact finishDT_range _ _ _ _ _ _ h

theorem parseAfterDay_range (y mo d : Int) (cs : List Char) (t : Int)
    (h : parseAfterDay y mo d cs = some t) :
    -8640000000000000 ≤ t ∧ t ≤ 8640000000000000 := by
  unfold parseAfterDay at h
  split at h
  · exact finishDT_range _ _ _ _ _ _ h
  · exact parseTimeTZ_range _ _ _ _ _ h
  · cases h

theorem parseAfterMonth_range (y mo : Int) (cs : List Char) (t : Int)
    (h : parseAfterMonth y mo cs = some t) :
    -8640000000000000 ≤ t ∧ t ≤ 8640000000000000 := by
  unfold parseAfterMonth at h
  split at h
  · exact finishDT_range _ _ _ _ _ _ h
  · exact parseTimeTZ_range _ _ _ _ _ h
  · split at h
    · cases h
    · split at h
      · exact parseAfterDay_range _ _ _ _ _ h
      · cases h
  · cases h

theorem parseAfterYear_range (y : Int) (cs : List Char) (t : Int)
    (h : parseAfterYear y cs = some t) :
    -8640000000000000 ≤ t ∧ t ≤ 8640000000000000 := by
  unfold parseAfterYear at h
  split at h
  · exact finishDT_range _ _ _ _ _ _ h
  · exact parseTimeTZ_range _ _ _ _ _ h
  · split at h
    · cases h
    · split at h
      · exact parseAfterMonth_range _ _ _ _ h
      · cases h
  · cases h

theorem parseISOChars_range (cs : List Char) (t : Int) (h : parseISOChars cs = some t) :
    -8640000000000000 ≤ t ∧ t ≤ 8640000000000000 := by
  unfold parseISOChars at h
  split at h
  · cases h
  · exact parseAfterYear_range _ _ _ h

theorem parseISO_range (s : String) (t : Int) (h : parseISO s = some t) :
    -8640000000000000 ≤ t ∧ t ≤ 8640000000000000 :=
  parseISOChars_range _ _ h

theorem isoChars_ne_nil (t : Int) : isoChars t ≠ [] := by
  intro h
  have := congrArg List.length h
  simp [isoChars] at this

theorem isoString_ne_empty (t : Int) : isoString t ≠ "" := by
  intro h
  exact isoChars_ne_nil t (congrArg String.data h)

/-- Round trip at the `String` level. -/
theorem parseISO_isoString (t : Int) (h1 : -8640000000000000 ≤ t)
    (h2 : t ≤ 8640000000000000) : parseISO (isoString t) = some t :=
  parseISOChars_isoChars t h1 h2

/-! ## JavaScript numbers, `toFixed(2)`, `parseFloat` and `Math.round`

JavaScript numbers are IEEE-754 binary64 values. A finite double is
modelled by its exact rational value, and every arithmetic operation the
mappers perform (`x / 100`, `x * 100`, the conversion inside `parseFloat`)
applies an explicit round-to-nearest, ties-to-even step (`roundDouble`), as
the hardware does. Overflow to ±Infinity (|x| ≥ 2^1024) and gradual
underflow (|x| < 2^-1022) are outside the range of every value these
mappers manipulate and are not modelled. -/

/-- Round a rational to the nearest integer, ties to the even integer
(the tie-breaking rule of IEEE-754 round-to-nearest). -/
def rne (x : ℚ) : ℤ :=
  if x - ⌊x⌋ < 1/2 then ⌊x⌋
  else if 1/2 < x - ⌊x⌋ then ⌊x⌋ + 1
  else if Even ⌊x⌋ then ⌊x⌋ else ⌊x⌋ + 1

/-- IEEE-754 binary64 rounding of a positive real value: round to the
nearest multiple of the ulp `2 ^ (exponent - 52)`, ties to even. -/
def roundDoublePos (q : ℚ) : ℚ :=
  rne (q / 2 ^ (Int.log 2 q - 52)) * 2 ^ (Int.log 2 q - 52)

/-- IEEE-754 binary64 round-to-nearest-even of a real value (in the normal
finite range; see the section comment). -/
def roundDouble (q : ℚ) : ℚ :=
  if 0 < q then roundDoublePos q
  else if q < 0 then -roundDoublePos (-q)
  else 0

/-- A JavaScript number: a finite binary64 value modelled by its exact
rational value, or NaN. (±Infinity is omitted: no computation in the
mappers reaches the overflow threshold on the inputs considered here.) -/
inductive JSNum where
  | num (q : ℚ)
  | nan
deriving DecidableEq

/-- JavaScript division by 100 (`x / 100`): the exact quotient rounded to
the nearest binary64 value; NaN propagates. -/
def JSNum.divHundred : JSNum → JSNum
  | num q => num (roundDouble (q / 100))
  | nan => nan

/-- JavaScript multiplication by 100 (`x * 100`): the exact product rounded
to the nearest binary64 value; NaN propagates. -/
def JSNum.mulHundred : JSNum → JSNum
  | num q => num (roundDouble (q * 100))
  | nan => nan

/-- `Math.round`: the closest integer, rounding half toward positive
infinity, applied to the exact value of the argument double; NaN
propagates. (The result is always representable: at magnitudes where
doubles are spaced more than one apart, every double is an integer and is
returned unchanged.) -/
def jsRound : JSNum → JSNum
  | .num q => .num ((⌊q + 1 / 2⌋ : ℤ) : ℚ)
  | .nan => .nan

/-- `toFixed(2)` of a nonnegative value: the integer closest to `100·q`
(ties toward the larger integer), printed with two decimals. -/
def fixed2abs (q : ℚ) : List Char :=
  natPrint ((⌊q * 100 + 1 / 2⌋).toNat / 100) ++ '.' :: pad2 ((⌊q * 100 + 1 / 2⌋).toNat % 100)

/-- `Number.prototype.toFixed(2)`: "NaN" on NaN, a leading minus sign on a
negative value. The specification applies the cent selection to the exact
mathematical value of the argument double (here: the rational inside
`JSNum.num`, which the rounded operations above have already produced).
This is the `|x| < 10^21` fixed-notation branch; for `|x| ≥ 10^21` the real
method falls back to exponent-notation `ToString(x)`, a region none of the
values formatted by the mappers in this development reaches. -/
def toFixed2 : JSNum → List Char
  | .nan => ['N', 'a', 'N']
  | .num q => if q < 0 then '-' :: fixed2abs (-q) else fixed2abs q

/-- The whitespace stripped by `parseFloat`. -/
def jsWhitespace (c : Char) : Bool := c == ' ' || c == '\t' || c == '\n' || c == '\r'

/-- The decimal-literal body of `parseFloat` (no input built by the mappers
carries an exponent): the longest run of digits, an optional fraction, NaN
if no digit is present; trailing characters are ignored. -/
def parseFloatBody (cs : List Char) (neg : Bool) : JSNum :=
  let ip := cs.takeWhile Char.isDigit
  let fp :=
    match cs.dropWhile Char.isDigit with
    | '.' :: r2 => r2.takeWhile Char.isDigit
    | _ => []
  if ip = [] ∧ fp = [] then JSNum.nan
  else
    JSNum.num (roundDouble ((if neg then -1 else 1) *
      ((charsToNat ip : ℚ) + (charsToNat fp : ℚ) / (10 : ℚ) ^ fp.length)))

/-- JavaScript `parseFloat`: strips leading whitespace, reads an optional
sign and the longest decimal-literal prefix and rounds its exact value to
the nearest binary64 value, NaN when there is none (exponent notation,
`Infinity` and hex literals are not modelled: no string the mappers
produce contains them). -/
def parseFloatChars (cs : List Char) : JSNum :=
  match cs.dropWhile jsWhitespace with
  | [] => JSNum.nan
  | c :: rest =>
    if c = '-' then parseFloatBody rest true
    else if c = '+' then parseFloatBody rest false
    else parseFloatBody (c :: rest) false

/-- `parseFloat` on a string. -/
def parseFloat (s : String) : JSNum := parseFloatChars s.data

example : parseFloat "oops" = JSNum.nan := by decide
example : parseFloat "" = JSNum.nan := by decide
example : toFixed2 JSNum.nan = ['N', 'a', 'N'] := by decide

/-- `String.replace('$', '')` on a string that may contain one dollar sign:
remove the first occurrence. -/
def removeFirstDollar : List Char → List Char
  | [] => []
  | c :: cs => if c = '$' then cs else c :: removeFirstDollar cs

/-- JavaScript `s.replace('$', '')` (string pattern: first occurrence only). -/
def replaceDollar (s : String) : String := ⟨removeFirstDollar s.data⟩

theorem removeFirstDollar_cons (cs : List Char) : removeFirstDollar ('$' :: cs) = cs := by
  simp [removeFirstDollar]

/-! ### parseFloat recovers toFixed(2) output exactly -/

theorem isDigit_ne (c : Char) (h : c.isDigit = true) (c' : Char) (h' : c'.isDigit = false) :
    c ≠ c' := by
  intro he
  rw [he, h'] at h
  cases h

theorem isDigit_not_ws (c : Char) (h : c.isDigit = true) : jsWhitespace c = false := by
  simp only [jsWhitespace, Bool.or_eq_false_iff, beq_eq_false_iff_ne]
  exact ⟨⟨⟨isDigit_ne c h ' ' (by decide), isDigit_ne c h '\t' (by decide)⟩,
    isDigit_ne c h '\n' (by decide)⟩, isDigit_ne c h '\r' (by decide)⟩

theorem takeWhile_append_of_all {p : Char → Bool} (l₁ l₂ : List Char)
    (h : ∀ c ∈ l₁, p c = true) : (l₁ ++ l₂).takeWhile p = l₁ ++ l₂.takeWhile p := by
  induction l₁ with
  | nil => simp
  | cons c l ih =>
    simp only [List.cons_append, List.takeWhile_cons, h c (List.mem_cons_self c l), if_true]
    rw [ih fun c' hc' => h c' (List.mem_cons_of_mem c hc')]

theorem dropWhile_append_of_all {p : Char → Bool} (l₁ l₂ : List Char)
    (h : ∀ c ∈ l₁, p c = true) : (l₁ ++ l₂).dropWhile p = l₂.dropWhile p := by
  induction l₁ with
  | nil => simp
  | cons c l ih =>
    simp only [List.cons_append, List.dropWhile_cons, h c (List.mem_cons_self c l), if_true]
    exact ih fun c' hc' => h c' (List.mem_cons_of_mem c hc')

theorem takeWhile_eq_self_of_all {p : Char → Bool} (l : List Char)
    (h : ∀ c ∈ l, p c = true) : l.takeWhile p = l := by
  have := takeWhile_append_of_all l [] h
  simpa using this

theorem charsToNat_pad2 (b : ℕ) (hb : b < 100) : charsToNat (pad2 b) = b := by
  simp only [pad2, charsToNat, charsToNatAux, digitChar_toNat (b / 10) (by omega),
    digitChar_toNat (b % 10) (by omega)]
  omega

theorem pad2_all_digits (b : ℕ) (hb : b < 100) : ∀ c ∈ pad2 b, c.isDigit = true := by
  intro c hc
  simp only [pad2, List.mem_cons, List.not_mem_nil, or_false] at hc
  rcases hc with hc | hc <;> subst hc
  · exact digitChar_isDigit _ (by omega)
  · exact digitChar_isDigit _ (by omega)

theorem parseFloatBody_digits_frac (a b : ℕ) (hb : b < 100) (neg : Bool) :
    parseFloatBody (natPrint a ++ '.' :: pad2 b) neg =
      JSNum.num (roundDouble ((if neg then -1 else 1) * ((a : ℚ) + (b : ℚ) / 100))) := by
  have hip : (natPrint a ++ '.' :: pad2 b).takeWhile Char.isDigit = natPrint a := by
    rw [takeWhile_append_of_all _ _ (natPrint_all_digits a)]
    simp [List.takeWhile_cons]
  have hdp : (natPrint a ++ '.' :: pad2 b).dropWhile Char.isDigit = '.' :: pad2 b := by
    rw [dropWhile_append_of_all _ _ (natPrint_all_digits a)]
    simp [List.dropWhile_cons]
  simp only [parseFloatBody, hip, hdp]
  rw [if_neg (by simp [natPrint_ne_nil a])]
  rw [takeWhile_eq_self_of_all _ (pad2_all_digits b hb)]
  rw [charsToNat_natPrint a, charsToNat_pad2 b hb]
  norm_num [pad2]

theorem parseFloatChars_digits_frac (a b : ℕ) (hb : b < 100) :
    parseFloatChars (natPrint a ++ '.' :: pad2 b) =
      JSNum.num (roundDouble ((a : ℚ) + (b : ℚ) / 100)) := by
  obtain ⟨c, l, hcl⟩ : ∃ c l, natPrint a = c :: l := by
    cases h : natPrint a with
    | nil => exact absurd h (natPrint_ne_nil a)
    | cons c l => exact ⟨c, l, rfl⟩
  have hcd : c.isDigit = true := natPrint_all_digits a c (by rw [hcl]; exact List.mem_cons_self c l)
  rw [show natPrint a ++ '.' :: pad2 b = c :: (l ++ '.' :: pad2 b) from by rw [← List.cons_append, ← hcl]]
  rw [show parseFloatChars (c :: (l ++ '.' :: pad2 b)) =
      parseFloatBody (c :: (l ++ '.' :: pad2 b)) false from by
    simp only [parseFloatChars,
      List.dropWhile_cons_of_neg (by simp [isDigit_not_ws c hcd] :
        ¬ jsWhitespace c = true)]
    rw [if_neg (isDigit_ne c hcd '-' (by decide)), if_neg (isDigit_ne c hcd '+' (by decide))]]
  rw [show (c :: (l ++ '.' :: pad2 b)) = natPrint a ++ '.' :: pad2 b from by
    rw [← List.cons_append, ← hcl]]
  rw [parseFloatBody_digits_frac a b hb false]
  norm_num

theorem parseFloatChars_neg_digits_frac (a b : ℕ) (hb : b < 100) :
    parseFloatChars ('-' :: (natPrint a ++ '.' :: pad2 b)) =
      JSNum.num (roundDouble (-((a : ℚ) + (b : ℚ) / 100))) := by
  rw [show parseFloatChars ('-' :: (natPrint a ++ '.' :: pad2 b)) =
      parseFloatBody (natPrint a ++ '.' :: pad2 b) true from by
    simp only [parseFloatChars,
      List.dropWhile_cons_of_neg (by decide : ¬ jsWhitespace '-' = true)]
    simp only [if_true]]
  rw [parseFloatBody_digits_frac a b hb true]
  norm_num

/-! ### Properties of binary64 rounding -/

theorem rne_err (x : ℚ) : |(rne x : ℚ) - x| ≤ 1/2 := by
  have h1 := Int.floor_le x
  have h2 := Int.lt_floor_add_one x
  unfold rne
  split_ifs with hc1 hc2 hc3 <;>
    rw [abs_le] <;> constructor <;> push_cast <;> linarith

theorem rne_eq_low (x : ℚ) (n : ℤ) (h1 : (n:ℚ) ≤ x) (h2 : x < n + 1/2) : rne x = n := by
  have hf : ⌊x⌋ = n := Int.floor_eq_iff.mpr ⟨h1, by linarith⟩
  unfold rne
  rw [hf, if_pos (by push_cast; linarith)]

theorem rne_eq_high (x : ℚ) (n : ℤ) (h1 : (n:ℚ) + 1/2 < x) (h2 : x < n + 1) :
    rne x = n + 1 := by
  have hf : ⌊x⌋ = n := Int.floor_eq_iff.mpr ⟨by linarith, by push_cast; linarith⟩
  unfold rne
  rw [hf, if_neg (by push_cast; linarith), if_pos (by push_cast; linarith)]

theorem roundDouble_pos (q : ℚ) (hq : 0 < q) : roundDouble q = roundDoublePos q := by
  rw [roundDouble, if_pos hq]

theorem roundDouble_neg_eq (q : ℚ) : roundDouble (-q) = -roundDouble q := by
  unfold roundDouble
  rcases lt_trichotomy q 0 with h | h | h
  · rw [if_pos (by linarith : 0 < -q), if_neg (by linarith : ¬ 0 < q), if_pos h, neg_neg]
  · subst h
    norm_num
  · rw [if_neg (by linarith : ¬ 0 < -q), if_pos (by linarith : -q < 0), neg_neg, if_pos h]

/-- The rounding error of binary64 is at most half an ulp. -/
theorem roundDouble_err_log (q : ℚ) (hq : 0 < q) :
    |roundDouble q - q| ≤ 2 ^ (Int.log 2 q - 53) := by
  rw [roundDouble_pos q hq]
  unfold roundDoublePos
  have hu0 : (0:ℚ) < 2 ^ (Int.log 2 q - 52) := by positivity
  have hkey : (rne (q / 2 ^ (Int.log 2 q - 52)) : ℚ) * 2 ^ (Int.log 2 q - 52) - q =
      ((rne (q / 2 ^ (Int.log 2 q - 52)) : ℚ) - q / 2 ^ (Int.log 2 q - 52)) *
        2 ^ (Int.log 2 q - 52) := by
    field_simp
  rw [hkey, abs_mul, abs_of_pos hu0]
  have h12 : (2:ℚ) ^ (Int.log 2 q - 53) = (1/2) * 2 ^ (Int.log 2 q - 52) := by
    rw [show Int.log 2 q - 52 = (Int.log 2 q - 53) + 1 by ring, zpow_add_one₀ (by norm_num)]
    ring
  rw [h12]
  exact mul_le_mul_of_nonneg_right (rne_err _) (le_of_lt hu0)

theorem roundDouble_err (q : ℚ) (hq : q ≠ 0) (e : ℤ) (h2 : |q| < 2 ^ (e + 1)) :
    |roundDouble q - q| ≤ 2 ^ (e - 53) := by
  rcases hq.lt_or_lt with h | h
  · have h2' : -q < 2 ^ (e + 1) := by
      rw [abs_of_neg h] at h2
      exact h2
    have herr := roundDouble_err_log (-q) (by linarith)
    rw [roundDouble_neg_eq] at herr
    have hlog : Int.log 2 (-q) ≤ e := by
      have := (Int.lt_zpow_iff_log_lt (by norm_num : 1 < 2) (by linarith : (0:ℚ) < -q)).mp h2'
      omega
    calc |roundDouble q - q| = |(-(roundDouble q - q))| := (abs_neg _).symm
      _ = |(-roundDouble q) - (-q)| := by ring_nf
      _ ≤ 2 ^ (Int.log 2 (-q) - 53) := herr
      _ ≤ 2 ^ (e - 53) := zpow_le_zpow_right₀ (by norm_num) (by omega)
  · have h2' : q < 2 ^ (e + 1) := by
      rw [abs_of_pos h] at h2
      exact h2
    have hlog : Int.log 2 q ≤ e := by
      have := (Int.lt_zpow_iff_log_lt (by norm_num : 1 < 2) h).mp h2'
      omega
    calc |roundDouble q - q| ≤ 2 ^ (Int.log 2 q - 53) := roundDouble_err_log q h
      _ ≤ 2 ^ (e - 53) := zpow_le_zpow_right₀ (by norm_num) (by omega)

/-- Compute `roundDouble` at a concrete positive value whose binade is
known. -/
theorem roundDouble_eq_pos (q : ℚ) (e : ℕ) (he : e ≤ 52) (n : ℤ)
    (h1 : (2:ℚ) ^ e ≤ q) (h2 : q < 2 ^ (e + 1))
    (hn : rne (q * 2 ^ (52 - e)) = n) : roundDouble q = (n : ℚ) / 2 ^ (52 - e) := by
  have hq : 0 < q := lt_of_lt_of_le (by positivity) h1
  have hlog : Int.log 2 q = e := by
    have hle : (e:ℤ) ≤ Int.log 2 q := by
      rw [← Int.zpow_le_iff_le_log (by norm_num : 1 < 2) hq, zpow_natCast]
      exact h1
    have hlt : Int.log 2 q < (e:ℤ) + 1 := by
      have h2' : q < (2:ℚ) ^ ((e:ℤ) + 1) := by
        rw [show ((e:ℤ) + 1) = ((e + 1 : ℕ) : ℤ) by push_cast; ring, zpow_natCast]
        exact h2
      exact (Int.lt_zpow_iff_log_lt (by norm_num : 1 < 2) hq).mp h2'
    omega
  have hu : (2:ℚ) ^ (Int.log 2 q - 52) = ((2:ℚ) ^ ((52 - e : ℕ)))⁻¹ := by
    rw [hlog, show (e:ℤ) - 52 = -((52 - e : ℕ) : ℤ) by omega, zpow_neg, zpow_natCast]
  rw [roundDouble_pos q hq]
  unfold roundDoublePos
  rw [hu]
  have hx : q / ((2:ℚ) ^ ((52 - e : ℕ)))⁻¹ = q * 2 ^ (52 - e) := by
    field_simp
  rw [hx, hn, div_eq_mul_inv]

/-! ### The currency pipeline on integer cent counts -/

/-- Dividing an integer cent count `|m| ≤ 2^50` by 100 in binary64 keeps
the scaled value within a fifth of a cent of `m`. -/
theorem roundDouble_cents_err (m : ℤ) (hm : |m| ≤ 2 ^ 50) :
    |roundDouble ((m:ℚ) / 100) * 100 - m| ≤ 25/128 := by
  rcases eq_or_ne m 0 with rfl | hm0
  · norm_num [roundDouble]
  · have hq : ((m:ℚ) / 100) ≠ 0 :=
      div_ne_zero (Int.cast_ne_zero.mpr hm0) (by norm_num)
    have hub : |(m:ℚ)| ≤ 2 ^ 50 := by
      rw [← Int.cast_abs]
      exact_mod_cast hm
    have h2 : |(m:ℚ) / 100| < 2 ^ ((44:ℤ) + 1) := by
      rw [abs_div, abs_of_pos (by norm_num : (0:ℚ) < 100),
        div_lt_iff (by norm_num : (0:ℚ) < 100)]
      have : (2:ℚ) ^ ((44:ℤ) + 1) * 100 = 3518437208883200 := by norm_num
      rw [this]
      have : (2:ℚ) ^ 50 = 1125899906842624 := by norm_num
      linarith
    have herr := roundDouble_err ((m:ℚ) / 100) hq 44 h2
    have h9 : (2:ℚ) ^ ((44:ℤ) - 53) = 1/512 := by norm_num
    rw [h9] at herr
    calc |roundDouble ((m:ℚ) / 100) * 100 - m|
        = |(roundDouble ((m:ℚ) / 100) - (m:ℚ) / 100) * 100| := by ring_nf
      _ = |roundDouble ((m:ℚ) / 100) - (m:ℚ) / 100| * 100 := by
          rw [abs_mul]
          norm_num
      _ ≤ (1/512) * 100 := mul_le_mul_of_nonneg_right herr (by norm_num)
      _ ≤ 25/128 := by norm_num

/-- `toFixed(2)` of the double nearest to `m / 100` prints exactly `m`
cents, for `0 ≤ m ≤ 2^50`. -/
theorem fixed2abs_roundDouble (m : ℤ) (h0 : 0 ≤ m) (hm : m ≤ 2 ^ 50) :
    fixed2abs (roundDouble ((m:ℚ) / 100)) =
      natPrint (m.toNat / 100) ++ '.' :: pad2 (m.toNat % 100) := by
  have herr := roundDouble_cents_err m (abs_le.mpr ⟨by omega, hm⟩)
  rw [abs_le] at herr
  have hfl : ⌊roundDouble ((m:ℚ) / 100) * 100 + 1/2⌋ = m := by
    rw [Int.floor_eq_iff]
    constructor
    · linarith [herr.1]
    · push_cast
      linarith [herr.2]
  unfold fixed2abs
  rw [hfl]

theorem toFixed2_roundDouble_pos (m : ℤ) (h0 : 0 ≤ m) (hm : m ≤ 2 ^ 50) :
    toFixed2 (JSNum.num (roundDouble ((m:ℚ) / 100))) =
      natPrint (m.toNat / 100) ++ '.' :: pad2 (m.toNat % 100) := by
  rcases eq_or_lt_of_le h0 with rfl | hpos
  · rw [show roundDouble (((0:ℤ):ℚ) / 100) = 0 by norm_num [roundDouble]]
    simp only [toFixed2]
    rw [if_neg (lt_irrefl 0), show (0:ℚ) = roundDouble (((0:ℤ):ℚ) / 100) by
      norm_num [roundDouble]]
    exact fixed2abs_roundDouble 0 le_rfl (by norm_num)
  · have herr := roundDouble_cents_err m (abs_le.mpr ⟨by omega, hm⟩)
    rw [abs_le] at herr
    have hdpos : ¬ roundDouble ((m:ℚ) / 100) < 0 := by
      push_neg
      have h1q : (1:ℚ) ≤ (m:ℚ) := by exact_mod_cast hpos
      linarith [herr.1]
    simp only [toFixed2]
    rw [if_neg hdpos]
    exact fixed2abs_roundDouble m h0 hm

theorem toFixed2_roundDouble_neg (m : ℤ) (h1 : m ≤ -1) (h2 : -(2 ^ 50) ≤ m) :
    toFixed2 (JSNum.num (roundDouble ((m:ℚ) / 100))) =
      '-' :: (natPrint ((-m).toNat / 100) ++ '.' :: pad2 ((-m).toNat % 100)) := by
  have hflip : roundDouble ((m:ℚ) / 100) = -roundDouble (((-m : ℤ):ℚ) / 100) := by
    rw [show ((m:ℚ)) / 100 = -((((-m : ℤ)):ℚ) / 100) by push_cast; ring, roundDouble_neg_eq]
  have herr := roundDouble_cents_err (-m) (abs_le.mpr ⟨by omega, by omega⟩)
  rw [abs_le] at herr
  have hdpos : roundDouble (((-m : ℤ):ℚ) / 100) > 0 := by
    have h1q : (1:ℚ) ≤ ((-m : ℤ):ℚ) := by exact_mod_cast (by omega : (1:ℤ) ≤ -m)
    linarith [herr.1]
  have hneg : roundDouble ((m:ℚ) / 100) < 0 := by
    rw [hflip]
    linarith
  simp only [toFixed2]
  rw [if_pos hneg, hflip, neg_neg, fixed2abs_roundDouble (-m) (by omega) (by omega)]

theorem cents_value_eq (a : ℤ) (ha : 0 ≤ a) :
    ((a.toNat / 100 : ℕ) : ℚ) + ((a.toNat % 100 : ℕ) : ℚ) / 100 = (a : ℚ) / 100 := by
  have h1 : (100 * (a.toNat / 100) + a.toNat % 100 : ℕ) = a.toNat := by omega
  rw [eq_div_iff (by norm_num : (100 : ℚ) ≠ 0), add_mul,
    div_mul_cancel₀ _ (by norm_num : (100 : ℚ) ≠ 0)]
  have : ((a.toNat / 100 : ℕ) : ℚ) * 100 + ((a.toNat % 100 : ℕ) : ℚ) =
      ((100 * (a.toNat / 100) + a.toNat % 100 : ℕ) : ℚ) := by
    push_cast
    ring
  rw [this, h1]
  exact_mod_cast Int.toNat_of_nonneg ha

/-- `Math.round(d * 100)` recovers `m` from the double `d` nearest to
`m / 100`, for `|m| ≤ 2^50`: the accumulated rounding error stays below
half a cent. -/
theorem centsRound (m : ℤ) (hm : |m| ≤ 2 ^ 50) :
    jsRound (JSNum.mulHundred (JSNum.num (roundDouble ((m:ℚ) / 100)))) =
      JSNum.num ((m : ℤ) : ℚ) := by
  rcases eq_or_ne m 0 with rfl | hm0
  · rw [show roundDouble (((0:ℤ):ℚ) / 100) = 0 by norm_num [roundDouble]]
    show JSNum.num ((⌊roundDouble ((0:ℚ) * 100) + 1/2⌋ : ℤ) : ℚ) = JSNum.num ((0:ℤ):ℚ)
    rw [show (0:ℚ) * 100 = 0 by norm_num, show roundDouble (0:ℚ) = 0 by norm_num [roundDouble]]
    norm_num
  · have herr := roundDouble_cents_err m hm
    rw [abs_le] at herr
    have hub : |(m:ℚ)| ≤ 2 ^ 50 := by
      rw [← Int.cast_abs]
      exact_mod_cast hm
    have habs : (1:ℚ) ≤ |(m:ℚ)| := by
      rw [← Int.cast_abs]
      have h1 : (1:ℤ) ≤ |m| := by
        rcases hm0.lt_or_lt with h | h
        · rw [abs_of_neg h]
          omega
        · rw [abs_of_pos h]
          omega
      exact_mod_cast h1
    have hne : roundDouble ((m:ℚ) / 100) * 100 ≠ 0 := by
      intro h
      rw [h] at herr
      have : |(m:ℚ)| ≤ 25/128 := abs_le.mpr ⟨by linarith [herr.2], by linarith [herr.1]⟩
      linarith
    have hlt : |roundDouble ((m:ℚ) / 100) * 100| < 2 ^ ((50:ℤ) + 1) := by
      have habs2 : |roundDouble ((m:ℚ) / 100) * 100| ≤ |(m:ℚ)| + 25/128 := by
        calc |roundDouble ((m:ℚ) / 100) * 100|
            = |(m:ℚ) + (roundDouble ((m:ℚ) / 100) * 100 - m)| := by ring_nf
          _ ≤ |(m:ℚ)| + |roundDouble ((m:ℚ) / 100) * 100 - m| := abs_add _ _
          _ ≤ |(m:ℚ)| + 25/128 := by
              have := abs_le.mpr ⟨herr.1, herr.2⟩
              linarith
      have h51 : (2:ℚ) ^ ((50:ℤ) + 1) = 2251799813685248 := by norm_num
      have h50 : (2:ℚ) ^ 50 = 1125899906842624 := by norm_num
      rw [h51]
      rw [h50] at hub
      linarith
    have herr2 := roundDouble_err _ hne 50 hlt
    have h8 : (2:ℚ) ^ ((50:ℤ) - 53) = 1/8 := by norm_num
    rw [h8, abs_le] at herr2
    show JSNum.num ((⌊roundDouble (roundDouble ((m:ℚ) / 100) * 100) + 1/2⌋ : ℤ) : ℚ) = _
    have hfl : ⌊roundDouble (roundDouble ((m:ℚ) / 100) * 100) + 1/2⌋ = m := by
      rw [Int.floor_eq_iff]
      constructor
      · linarith [herr.1, herr2.1]
      · push_cast
        linarith [herr.2, herr2.2]
    rw [hfl]

/-- The full currency round trip on integer cent counts with `|m| ≤ 2^50`:
`Math.round(parseFloat(("$" + (m/100).toFixed(2)).replace("$", "")) * 100)`
recovers `m` exactly, every binary64 rounding step accounted for. -/
theorem currency_roundtrip_safe (m : ℤ) (hm : |m| ≤ 2 ^ 50) :
    jsRound (JSNum.mulHundred (parseFloatChars (removeFirstDollar
      ('$' :: toFixed2 (JSNum.divHundred (JSNum.num ((m : ℤ) : ℚ))))))) =
      JSNum.num ((m : ℤ) : ℚ) := by
  rw [removeFirstDollar_cons]
  have hd : JSNum.divHundred (JSNum.num ((m:ℤ):ℚ)) =
      JSNum.num (roundDouble ((m:ℚ) / 100)) := rfl
  rw [hd]
  have hm' := abs_le.mp hm
  rcases le_or_lt 0 m with h0 | hneg
  · rw [toFixed2_roundDouble_pos m h0 hm'.2,
      parseFloatChars_digits_frac (m.toNat / 100) (m.toNat % 100) (by omega),
      cents_value_eq m h0]
    exact centsRound m hm
  · rw [toFixed2_roundDouble_neg m (by omega) (by omega),
      parseFloatChars_neg_digits_frac ((-m).toNat / 100) ((-m).toNat % 100) (by omega),
      cents_value_eq (-m) (by omega),
      show -((((-m : ℤ)):ℚ) / 100) = (m:ℚ) / 100 by push_cast; ring]
    exact centsRound m hm

/-! ## JavaScript `Date` values -/

/-- A JavaScript `Date`: its time value, with `none` for an Invalid Date
(NaN time value). -/
structure JSDate where
  time : Option Int
deriving DecidableEq

/-- `new Date(string)`: parse the Date Time String Format; a non-conforming
string yields an Invalid Date (never an exception). -/
def jsNewDate (s : String) : JSDate := ⟨parseISO s⟩

/-- `Date.prototype.toISOString`: the canonical `YYYY-MM-DDTHH:mm:ss.sssZ`
string, or a thrown `RangeError` on an Invalid Date. -/
def JSDate.toISOString (d : JSDate) : Except String String :=
  match d.time with
  | some t => .ok (isoString t)
  | none => .error "RangeError: Invalid time value"

/-- Does `s` parse, and print back (via `toISOString`) as exactly `s`? -/
def isCanonicalISO (s : String) : Bool :=
  match parseISO s with
  | some t => isoString t == s
  | none => false

theorem parseISO_isSome_ne_empty (s : String) (h : (parseISO s).isSome = true) : s ≠ "" := by
  intro he
  subst he
  exact absurd h (by decide)

/-! ## The todo-list example: flat model -/

/-- `TodoDomainModel` from the todo-list example. -/
structure TodoDomainModel where
  id : String
  text : String
  completed : Bool
  due_date : Option String
deriving DecidableEq

/-- `TodoViewModel` from the todo-list example. -/
structure TodoViewModel where
  id : String
  text : String
  isDone : Bool
  dueDate : Option JSDate
deriving DecidableEq

/-- `d` is a valid todo domain record: `due_date` is null or a valid
ISO-8601 date-time string. -/
def TodoDomainModel.validDates (d : TodoDomainModel) : Bool :=
  match d.due_date with
  | none => true
  | some s => (parseISO s).isSome

/-- `d` has canonical date strings: `due_date` is null or prints back
unchanged through `toISOString`. -/
def TodoDomainModel.canonicalDates (d : TodoDomainModel) : Bool :=
  match d.due_date with
  | none => true
  | some s => isCanonicalISO s

namespace TodoMapper

/-- `TodoMapper.toViewModel`: `dueDate` is
`domain.due_date ? new Date(domain.due_date) : null` — the truthiness test
is false for `null` and for the empty string. -/
def toViewModel (domain : TodoDomainModel) : TodoViewModel where
  id := domain.id
  text := domain.text
  isDone := domain.completed
  dueDate :=
    match domain.due_date with
    | some s => if s ≠ "" then some (jsNewDate s) else none
    | none => none

/-- `TodoMapper.toDomainModel`: `due_date` is
`view.dueDate ? view.dueDate.toISOString() : null` — a `Date` object is
always truthy, and `toISOString` throws on an Invalid Date, so the result
is an `Except`. -/
def toDomainModel (view : TodoViewModel) : Except String TodoDomainModel :=
  match view.dueDate with
  | some date =>
    match date.toISOString with
    | .ok s =>
      .ok { id := view.id, text := view.text, completed := view.isDone, due_date := some s }
    | .error e => .error e
  | none =>
    .ok { id := view.id, text := view.text, completed := view.isDone, due_date := none }

end TodoMapper

/-! ## The blog example: nested author -/

/-- `AuthorDomainModel` from the blog example. -/
structure AuthorDomainModel where
  id : String
  name : String
  avatar_url : String
deriving DecidableEq

/-- `AuthorViewModel` from the blog example. -/
structure AuthorViewModel where
  id : String
  displayName : String
  avatarUrl : String
deriving DecidableEq

namespace AuthorMapper

/-- `AuthorMapper.toViewModel`. -/
def toViewModel (domain : AuthorDomainModel) : AuthorViewModel where
  id := domain.id
  displayName := domain.name
  avatarUrl := domain.avatar_url

/-- `AuthorMapper.toDomainModel`. -/
def toDomainModel (view : AuthorViewModel) : AuthorDomainModel where
  id := view.id
  name := view.displayName
  avatar_url := view.avatarUrl

end AuthorMapper

/-- `PostDomainModel` from the blog example. -/
structure PostDomainModel where
  id : String
  title : String
  content : String
  author : AuthorDomainModel
  published_at : String
deriving DecidableEq

/-- `PostViewModel` from the blog example. -/
structure PostViewModel where
  id : String
  title : String
  content : String
  author : AuthorViewModel
  publishedAt : JSDate
deriving DecidableEq

namespace PostMapper

/-- `PostMapper.toViewModel`: nested mapping through `AuthorMapper`,
`publishedAt` is `new Date(domain.published_at)`. -/
def toViewModel (domain : PostDomainModel) : PostViewModel where
  id := domain.id
  title := domain.title
  content := domain.content
  author := AuthorMapper.toViewModel domain.author
  publishedAt := jsNewDate domain.published_at

/-- `PostMapper.toDomainModel`: `published_at` is
`view.publishedAt.toISOString()`, which throws on an Invalid Date. -/
def toDomainModel (view : PostViewModel) : Except String PostDomainModel :=
  match view.publishedAt.toISOString with
  | .ok s =>
    .ok { id := view.id, title := view.title, content := view.content,
          author := AuthorMapper.toDomainModel view.author, published_at := s }
  | .error e => .error e

end PostMapper

/-! ## The messaging example: optional nested attachment -/

/-- A TypeScript `field?: α | null`: absent, null, or a value. -/
inductive JSNullable (α : Type) where
  | undef
  | null
  | val (a : α)
deriving DecidableEq

/-- `AttachmentDomainModel` from the messaging example. -/
structure AttachmentDomainModel where
  id : String
  url : String
  type : String
deriving DecidableEq

/-- `AttachmentViewModel` from the messaging example. -/
structure AttachmentViewModel where
  id : String
  url : String
  kind : String
deriving DecidableEq

namespace AttachmentMapper

/-- `AttachmentMapper.toViewModel`. -/
def toViewModel (domain : AttachmentDomainModel) : AttachmentViewModel where
  id := domain.id
  url := domain.url
  kind := domain.type

/-- `AttachmentMapper.toDomainModel`. -/
def toDomainModel (view : AttachmentViewModel) : AttachmentDomainModel where
  id := view.id
  url := view.url
  type := view.kind

end AttachmentMapper

/-- `MessageDomainModel` from the messaging example. -/
structure MessageDomainModel where
  id : String
  sender : String
  text : String
  sent_at : String
  attachment : JSNullable AttachmentDomainModel
deriving DecidableEq

/-- `MessageViewModel` from the messaging example. -/
structure MessageViewModel where
  id : String
  sender : String
  text : String
  sentAt : JSDate
  attachment : JSNullable AttachmentViewModel
deriving DecidableEq

namespace MessageMapper

/-- `MessageMapper.toViewModel`: the attachment is
`domain.attachment ? attachmentMapper.toViewModel(domain.attachment) : null`
— both `undefined` and `null` are falsy, an object is truthy. -/
def toViewModel (domain : MessageDomainModel) : MessageViewModel where
  id := domain.id
  sender := domain.sender
  text := domain.text
  sentAt := jsNewDate domain.sent_at
  attachment :=
    match domain.attachment with
    | .val a => .val (AttachmentMapper.toViewModel a)
    | _ => .null

/-- `MessageMapper.toDomainModel`: `sent_at` is
`view.sentAt.toISOString()` (throws on an Invalid Date), the attachment is
null-preserved as in `toViewModel`. -/
def toDomainModel (view : MessageViewModel) : Except String MessageDomainModel :=
  match view.sentAt.toISOString with
  | .ok s =>
    .ok { id := view.id, sender := view.sender, text := view.text, sent_at := s,
          attachment :=
            match view.attachment with
            | .val a => .val (AttachmentMapper.toDomainModel a)
            | _ => .null }
  | .error e => .error e

end MessageMapper

/-! ## The e-commerce example: formatted currency and nested category -/

/-- `CategoryDomainModel` from the e-commerce example. -/
structure CategoryDomainModel where
  id : String
  name : String
deriving DecidableEq

/-- `CategoryViewModel` from the e-commerce example. -/
structure CategoryViewModel where
  id : String
  label : String
deriving DecidableEq

namespace CategoryMapper

/-- `CategoryMapper.toViewModel`. -/
def toViewModel (domain : CategoryDomainModel) : CategoryViewModel where
  id := domain.id
  label := domain.name

/-- `CategoryMapper.toDomainModel`. -/
def toDomainModel (view : CategoryViewModel) : CategoryDomainModel where
  id := view.id
  name := view.label

end CategoryMapper

/-- `ProductDomainModel` from the e-commerce example. -/
structure ProductDomainModel where
  id : String
  name : String
  price_cents : JSNum
  category : CategoryDomainModel
  image_url : String
deriving DecidableEq

/-- `ProductViewModel` from the e-commerce example; `price` is a formatted
string such as `"$19.99"`. -/
structure ProductViewModel where
  id : String
  name : String
  price : String
  category : CategoryViewModel
  imageUrl : String
deriving DecidableEq

namespace ProductMapper

/-- `ProductMapper.toViewModel`: the price is the template literal
`` `$${(domain.price_cents / 100).toFixed(2)}` ``. -/
def toViewModel (domain : ProductDomainModel) : ProductViewModel where
  id := domain.id
  name := domain.name
  price := ⟨'$' :: toFixed2 (JSNum.divHundred domain.price_cents)⟩
  category := CategoryMapper.toViewModel domain.category
  imageUrl := domain.image_url

/-- `ProductMapper.toDomainModel`: the price is
`Math.round(parseFloat(view.price.replace('$', '')) * 100)`; none of these
operations throws, an unparseable price yields NaN. -/
def toDomainModel (view : ProductViewModel) : ProductDomainModel where
  id := view.id
  name := view.name
  price_cents := jsRound (JSNum.mulHundred (parseFloat (replaceDollar view.price)))
  category := CategoryMapper.toDomainModel view.category
  image_url := view.imageUrl

end ProductMapper

/-! ## The project-management example: arrays of nested records -/

/-- `UserDomainModel` from the project-management example. -/
structure UserDomainModel where
  id : String
  name : String
deriving DecidableEq

/-- `UserViewModel` from the project-management example. -/
structure UserViewModel where
  id : String
  displayName : String
deriving DecidableEq

namespace UserMapper

/-- `UserMapper.toViewModel`. -/
def toViewModel (domain : UserDomainModel) : UserViewModel where
  id := domain.id
  displayName := domain.name

/-- `UserMapper.toDomainModel`. -/
def toDomainModel (view : UserViewModel) : UserDomainModel where
  id := view.id
  name := view.displayName

end UserMapper

/-- `TaskDomainModel` from the project-management example. -/
structure TaskDomainModel where
  id : String
  title : String
  completed : Bool
  assignee : UserDomainModel
deriving DecidableEq

/-- `TaskViewModel` from the project-management example. -/
structure TaskViewModel where
  id : String
  title : String
  isDone : Bool
  assignee : UserViewModel
deriving DecidableEq

namespace TaskMapper

/-- `TaskMapper.toViewModel`. -/
def toViewModel (domain : TaskDomainModel) : TaskViewModel where
  id := domain.id
  title := domain.title
  isDone := domain.completed
  assignee := UserMapper.toViewModel domain.assignee

/-- `TaskMapper.toDomainModel`. -/
def toDomainModel (view : TaskViewModel) : TaskDomainModel where
  id := view.id
  title := view.title
  completed := view.isDone
  assignee := UserMapper.toDomainModel view.assignee

end TaskMapper

/-- `ProjectDomainModel` from the project-management example. -/
structure ProjectDomainModel where
  id : String
  name : String
  tasks : List TaskDomainModel
deriving DecidableEq

/-- `ProjectViewModel` from the project-management example. -/
structure ProjectViewModel where
  id : String
  name : String
  tasks : List TaskViewModel
deriving DecidableEq

namespace ProjectMapper

/-- `ProjectMapper.toViewModel`:
`tasks: domain.tasks.map(task => taskMapper.toViewModel(task))`. -/
def toViewModel (domain : ProjectDomainModel) : ProjectViewModel where
  id := domain.id
  name := domain.name
  tasks := domain.tasks.map TaskMapper.toViewModel

/-- `ProjectMapper.toDomainModel`:
`tasks: view.tasks.map(task => taskMapper.toDomainModel(task))`. -/
def toDomainModel (view : ProjectViewModel) : ProjectDomainModel where
  id := view.id
  name := view.name
  tasks := view.tasks.map TaskMapper.toDomainModel

end ProjectMapper

/-! ## The user-management example: array of roles -/

namespace UserMgmt

/-- `RoleDomainModel` from the user-management example. -/
structure RoleDomainModel where
  id : String
  name : String
deriving DecidableEq

/-- `RoleViewModel` from the user-management example. -/
structure RoleViewModel where
  id : String
  label : String
deriving DecidableEq

namespace RoleMapper

/-- `RoleMapper.toViewModel`. -/
def toViewModel (domain : RoleDomainModel) : RoleViewModel where
  id := domain.id
  label := domain.name

/-- `RoleMapper.toDomainModel`. -/
def toDomainModel (view : RoleViewModel) : RoleDomainModel where
  id := view.id
  name := view.label

end RoleMapper

/-- `UserDomainModel` from the user-management example. -/
structure UserDomainModel where
  id : String
  email : String
  display_name : String
  roles : List RoleDomainModel
deriving DecidableEq

/-- `UserViewModel` from the user-management example. -/
structure UserViewModel where
  id : String
  email : String
  name : String
  roles : List RoleViewModel
deriving DecidableEq

namespace UserMapper

/-- `UserMapper.toViewModel` (user management):
`roles: domain.roles.map(role => roleMapper.toViewModel(role))`. -/
def toViewModel (domain : UserDomainModel) : UserViewModel where
  id := domain.id
  email := domain.email
  name := domain.display_name
  roles := domain.roles.map RoleMapper.toViewModel

/-- `UserMapper.toDomainModel` (user management). -/
def toDomainModel (view : UserViewModel) : UserDomainModel where
  id := view.id
  email := view.email
  display_name := view.name
  roles := view.roles.map RoleMapper.toDomainModel

end UserMapper

end UserMgmt

deriving instance DecidableEq for Except

/-! ## Mapper-level round-trip lemmas -/

theorem todo_roundtrip_canonical (d : TodoDomainModel) (h : d.canonicalDates = true) :
    TodoMapper.toDomainModel (TodoMapper.toViewModel d) = .ok d := by
  obtain ⟨i, tx, c, dd⟩ := d
  cases dd with
  | none => rfl
  | some s =>
    simp only [TodoDomainModel.canonicalDates] at h
    unfold isCanonicalISO at h
    split at h
    case h_1 t hp =>
      have hts : isoString t = s := eq_of_beq h
      have hs : s ≠ "" := parseISO_isSome_ne_empty s (by rw [hp]; rfl)
      simp only [TodoMapper.toViewModel, TodoMapper.toDomainModel, if_pos hs, jsNewDate, hp,
        JSDate.toISOString, hts]
    case h_2 => cases h

theorem post_roundtrip_canonical (p : PostDomainModel)
    (h : isCanonicalISO p.published_at = true) :
    PostMapper.toDomainModel (PostMapper.toViewModel p) = .ok p := by
  obtain ⟨i, ti, co, a, pa⟩ := p
  simp only at h
  unfold isCanonicalISO at h
  split at h
  case h_1 t hp =>
    have hts : isoString t = pa := eq_of_beq h
    simp only [PostMapper.toViewModel, PostMapper.toDomainModel, jsNewDate, hp,
      JSDate.toISOString, hts]
    rfl
  case h_2 => cases h

theorem todo_view_roundtrip (d : TodoDomainModel) (h : d.validDates = true) :
    ∃ d', TodoMapper.toDomainModel (TodoMapper.toViewModel d) = .ok d' ∧
      TodoMapper.toViewModel d' = TodoMapper.toViewModel d := by
  obtain ⟨i, tx, c, dd⟩ := d
  cases dd with
  | none => exact ⟨_, rfl, rfl⟩
  | some s =>
    simp only [TodoDomainModel.validDates] at h
    obtain ⟨t, hp⟩ := Option.isSome_iff_exists.mp h
    have hs : s ≠ "" := parseISO_isSome_ne_empty s h
    have hrange := parseISO_range s t hp
    refine ⟨⟨i, tx, c, some (isoString t)⟩, ?_, ?_⟩
    · simp only [TodoMapper.toViewModel, TodoMapper.toDomainModel, if_pos hs, jsNewDate, hp,
        JSDate.toISOString]
    · simp only [TodoMapper.toViewModel, if_pos hs, if_pos (isoString_ne_empty t), jsNewDate,
        hp, parseISO_isoString t hrange.1 hrange.2]

theorem product_price_roundtrip (pc : JSNum) (m : ℤ) (h : pc = JSNum.num ((m : ℤ) : ℚ))
    (hm : |m| ≤ 2 ^ 50) :
    jsRound (JSNum.mulHundred (parseFloat (replaceDollar
      ⟨'$' :: toFixed2 (JSNum.divHundred pc)⟩))) = pc := by
  subst h
  show jsRound (JSNum.mulHundred (parseFloatChars
    (removeFirstDollar ('$' :: toFixed2 (JSNum.divHundred (JSNum.num ((m : ℤ) : ℚ))))))) = _
  exact currency_roundtrip_safe m hm

theorem product_roundtrip (p : ProductDomainModel) (m : ℤ)
    (h : p.price_cents = JSNum.num ((m : ℤ) : ℚ)) (hm : |m| ≤ 2 ^ 50) :
    ProductMapper.toDomainModel (ProductMapper.toViewModel p) = p := by
  obtain ⟨i, n, pc, ⟨ci, cn⟩, img⟩ := p
  simp only at h
  simp only [ProductMapper.toViewModel, ProductMapper.toDomainModel, CategoryMapper.toViewModel,
    CategoryMapper.toDomainModel]
  rw [product_price_roundtrip pc m h hm]

theorem todo_invalid_date (d : TodoDomainModel) (s : String) (h1 : d.due_date = some s)
    (h2 : s ≠ "") (h3 : parseISO s = none) :
    (TodoMapper.toViewModel d).dueDate = some ⟨none⟩ ∧
      TodoMapper.toDomainModel (TodoMapper.toViewModel d) =
        .error "RangeError: Invalid time value" := by
  obtain ⟨i, tx, c, dd⟩ := d
  simp only at h1
  subst h1
  constructor
  · simp only [TodoMapper.toViewModel, if_pos h2, jsNewDate, h3]
  · simp only [TodoMapper.toViewModel, TodoMapper.toDomainModel, if_pos h2, jsNewDate, h3,
      JSDate.toISOString]

theorem product_nan_price (v : ProductViewModel)
    (h : parseFloat (replaceDollar v.price) = JSNum.nan) :
    (ProductMapper.toDomainModel v).price_cents = JSNum.nan := by
  simp only [ProductMapper.toDomainModel, h]
  rfl

/-! ## The claims -/

/-- Claim C1, counterexample: the domain record with the valid ISO-8601
due date `"2025-06-20T12:00:00Z"` round-trips to the normalized string
`"2025-06-20T12:00:00.000Z"`, not to itself, so the round trip is not
field-for-field exact on every valid domain record. -/
theorem C1_counterexample :
    TodoDomainModel.validDates ⟨"t1", "Buy milk", false, some "2025-06-20T12:00:00Z"⟩ = true ∧
    TodoMapper.toDomainModel (TodoMapper.toViewModel
      ⟨"t1", "Buy milk", false, some "2025-06-20T12:00:00Z"⟩) =
      .ok ⟨"t1", "Buy milk", false, some "2025-06-20T12:00:00.000Z"⟩ ∧
    (⟨"t1", "Buy milk", false, some "2025-06-20T12:00:00.000Z"⟩ : TodoDomainModel) ≠
      ⟨"t1", "Buy milk", false, some "2025-06-20T12:00:00Z"⟩ := by
  refine ⟨by decide, by decide, by decide⟩

/-- Claim C1 (amended): for every todo domain record whose `due_date` is null
or a canonical ISO string (one `toISOString` prints back verbatim), and every
post whose `published_at` is canonical, `toDomainModel (toViewModel d)`
succeeds with exactly `d`; a merely valid non-canonical date string is
normalized by the round trip. -/
theorem C1_roundtrip_canonical (d : TodoDomainModel) (p : PostDomainModel)
    (hd : d.canonicalDates = true) (hp : isCanonicalISO p.published_at = true) :
    TodoMapper.toDomainModel (TodoMapper.toViewModel d) = .ok d ∧
    PostMapper.toDomainModel (PostMapper.toViewModel p) = .ok p :=
  ⟨todo_roundtrip_canonical d hd, post_roundtrip_canonical p hp⟩

/-- Witness for C1: the round trip is exact at concrete canonical records. -/
theorem C1_roundtrip_canonical_witness :
    TodoMapper.toDomainModel (TodoMapper.toViewModel
      ⟨"t1", "Buy milk", false, some "2025-06-20T12:00:00.000Z"⟩) =
      .ok ⟨"t1", "Buy milk", false, some "2025-06-20T12:00:00.000Z"⟩ ∧
    PostMapper.toDomainModel (PostMapper.toViewModel
      ⟨"p1", "Title", "Body", ⟨"a1", "Ann", "/a.png"⟩, "2025-06-20T12:00:00.000Z"⟩) =
      .ok ⟨"p1", "Title", "Body", ⟨"a1", "Ann", "/a.png"⟩, "2025-06-20T12:00:00.000Z"⟩ :=
  C1_roundtrip_canonical _ _ (by decide) (by decide)

/-- Claim C2, counterexample: neither failure class propagates. A malformed
domain date string produces an Invalid Date sentinel in the view (no
failure), and an unparseable view currency string produces `NaN` in
`price_cents`: `toDomainModel` returns a fully populated record with the
fabricated sentinel value instead of reporting a failure. -/
theorem C2_counterexample :
    (TodoMapper.toViewModel ⟨"t1", "x", false, some "not-a-date"⟩).dueDate =
      some ⟨none⟩ ∧
    ProductMapper.toDomainModel ⟨"p1", "Widget", "$oops", ⟨"c1", "Toys"⟩, "/i.png"⟩ =
      ⟨"p1", "Widget", JSNum.nan, ⟨"c1", "Toys"⟩, "/i.png"⟩ := by
  exact ⟨by decide, by decide⟩

/-- Claim C2 (amended): a malformed domain date string is not reported at
`toViewModel`: it yields an Invalid Date sentinel, and the failure surfaces
only on the inverse mapping, where `toISOString` throws a `RangeError`;
an unparseable view currency string never fails: `parseFloat` yields `NaN`,
which `Math.round` propagates into `price_cents`. -/
theorem C2_deferred_failure (d : TodoDomainModel) (s : String) (v : ProductViewModel)
    (h1 : d.due_date = some s) (h2 : s ≠ "") (h3 : parseISO s = none)
    (h4 : parseFloat (replaceDollar v.price) = JSNum.nan) :
    (TodoMapper.toViewModel d).dueDate = some ⟨none⟩ ∧
    TodoMapper.toDomainModel (TodoMapper.toViewModel d) =
      .error "RangeError: Invalid time value" ∧
    (ProductMapper.toDomainModel v).price_cents = JSNum.nan := by
  obtain ⟨ha, hb⟩ := todo_invalid_date d s h1 h2 h3
  exact ⟨ha, hb, product_nan_price v h4⟩

/-- Witness for C2: the deferred-failure behavior at concrete records. -/
theorem C2_deferred_failure_witness :
    (TodoMapper.toViewModel ⟨"t1", "x", true, some "nope"⟩).dueDate = some ⟨none⟩ ∧
    TodoMapper.toDomainModel (TodoMapper.toViewModel ⟨"t1", "x", true, some "nope"⟩) =
      .error "RangeError: Invalid time value" ∧
    (ProductMapper.toDomainModel
      ⟨"p1", "W", "$oops", ⟨"c1", "T"⟩, "/i"⟩).price_cents = JSNum.nan :=
  C2_deferred_failure ⟨"t1", "x", true, some "nope"⟩ "nope" _ rfl (by decide) (by decide)
    (by decide)

/-- Claim C3, counterexample: the universal integer round trip fails in
binary64. The cent count m = 7036874417766418 is an exactly representable
integer double (m < 2^53), but the double nearest to m/100 is
2^46 + 3/16 = 70368744177664.1875, which is 0.0075 above m/100 — more than
half a cent of scaled error — so `toFixed(2)` prints m+1 cents and the
round trip returns m+1, not m. -/
theorem C3_counterexample :
    ProductMapper.toDomainModel (ProductMapper.toViewModel
      ⟨"p1", "W", JSNum.num 7036874417766418, ⟨"c1", "T"⟩, "/i"⟩) =
      ⟨"p1", "W", JSNum.num 7036874417766419, ⟨"c1", "T"⟩, "/i"⟩ ∧
    JSNum.num (7036874417766419 : ℚ) ≠ JSNum.num 7036874417766418 := by
  constructor
  · have e2 : roundDouble ((7036874417766418 : ℚ) / 100) = 4503599627370508/64 := by
      have h := roundDouble_eq_pos ((7036874417766418 : ℚ) / 100) 46 (by norm_num)
        4503599627370508 (by norm_num) (by norm_num)
        (rne_eq_high _ 4503599627370507 (by norm_num) (by norm_num))
      rw [h]
      norm_num
    have e7 : roundDouble ((7036874417766419 : ℚ) / 100) = 4503599627370508/64 := by
      have h := roundDouble_eq_pos ((7036874417766419 : ℚ) / 100) 46 (by norm_num)
        4503599627370508 (by norm_num) (by norm_num)
        (rne_eq_low _ 4503599627370508 (by norm_num) (by norm_num))
      rw [h]
      norm_num
    have e9 : roundDouble ((4503599627370508 : ℚ)/64 * 100) = 7036874417766419 := by
      have h := roundDouble_eq_pos ((4503599627370508 : ℚ)/64 * 100) 52 (by norm_num)
        7036874417766419 (by norm_num) (by norm_num)
        (rne_eq_high _ 7036874417766418 (by norm_num) (by norm_num))
      rw [h]
      norm_num
    have e3 : toFixed2 (JSNum.num ((4503599627370508 : ℚ)/64)) =
        natPrint 70368744177664 ++ '.' :: pad2 19 := by
      simp only [toFixed2]
      rw [if_neg (by norm_num)]
      unfold fixed2abs
      rw [show ⌊(4503599627370508 : ℚ)/64 * 100 + 1/2⌋ = 7036874417766419 from by norm_num]
      rw [show ((7036874417766419:ℤ).toNat / 100) = 70368744177664 from by decide,
          show ((7036874417766419:ℤ).toNat % 100) = 19 from by decide]
    have hp : jsRound (JSNum.mulHundred (parseFloat (replaceDollar
        (⟨'$' :: toFixed2 (JSNum.divHundred (JSNum.num 7036874417766418))⟩ : String)))) =
        JSNum.num 7036874417766419 := by
      rw [show JSNum.divHundred (JSNum.num 7036874417766418) =
          JSNum.num (roundDouble ((7036874417766418 : ℚ) / 100)) from rfl, e2, e3]
      rw [show parseFloat (replaceDollar
          (⟨'$' :: (natPrint 70368744177664 ++ '.' :: pad2 19)⟩ : String)) =
          parseFloatChars (natPrint 70368744177664 ++ '.' :: pad2 19) from by
        simp only [parseFloat, replaceDollar]
        rw [removeFirstDollar_cons]]
      rw [parseFloatChars_digits_frac 70368744177664 19 (by norm_num)]
      rw [show ((70368744177664:ℕ):ℚ) + ((19:ℕ):ℚ)/100 = (7036874417766419 : ℚ)/100 from by
        norm_num]
      rw [e7]
      rw [show JSNum.mulHundred (JSNum.num ((4503599627370508 : ℚ)/64)) =
          JSNum.num (roundDouble ((4503599627370508 : ℚ)/64 * 100)) from rfl, e9]
      show JSNum.num ((⌊(7036874417766419 : ℚ) + 1/2⌋ : ℤ) : ℚ) = _
      rw [show ⌊(7036874417766419 : ℚ) + 1/2⌋ = 7036874417766419 from by norm_num]
      norm_num
    simp only [ProductMapper.toViewModel, ProductMapper.toDomainModel,
      CategoryMapper.toViewModel, CategoryMapper.toDomainModel]
    rw [hp]
  · decide

/-- Claim C3 (amended): the currency transform round-trips exactly on
integer cent counts in the binary64-exact range: `price_cents` 1999 maps to
the view string `"$19.99"`, `"$19.99"` maps back to 1999, and every product
whose `price_cents` is an integer m with `|m| ≤ 2^50` (about 11 trillion
dollars) round-trips exactly, every rounding step accounted for; above
that range the scaled rounding error of m/100 can exceed half a cent and
the round trip can shift the cent count. -/
theorem C3_currency_safe (q : ProductDomainModel) (v : ProductViewModel)
    (p : ProductDomainModel) (m : ℤ)
    (hq : q.price_cents = JSNum.num 1999) (hv : v.price = "$19.99")
    (hp : p.price_cents = JSNum.num ((m : ℤ) : ℚ)) (hm : |m| ≤ 2 ^ 50) :
    (ProductMapper.toViewModel q).price = "$19.99" ∧
    (ProductMapper.toDomainModel v).price_cents = JSNum.num 1999 ∧
    ProductMapper.toDomainModel (ProductMapper.toViewModel p) = p := by
  have hcast : ((1999:ℤ):ℚ) = (1999:ℚ) := by norm_num
  refine ⟨?_, ?_, product_roundtrip p m hp hm⟩
  · simp only [ProductMapper.toViewModel, hq]
    rw [show JSNum.divHundred (JSNum.num 1999) =
        JSNum.num (roundDouble ((1999:ℚ) / 100)) from rfl, ← hcast]
    rw [toFixed2_roundDouble_pos 1999 (by norm_num) (by norm_num)]
    rw [show ((1999:ℤ).toNat / 100) = 19 from by decide,
        show ((1999:ℤ).toNat % 100) = 99 from by decide]
    decide
  · calc (ProductMapper.toDomainModel v).price_cents
        = jsRound (JSNum.mulHundred (parseFloatChars
            (removeFirstDollar ("$19.99" : String).data))) := by
          simp only [ProductMapper.toDomainModel, hv]
          rfl
      _ = jsRound (JSNum.mulHundred (parseFloatChars (natPrint 19 ++ '.' :: pad2 99))) := by
          rw [show removeFirstDollar ("$19.99" : String).data =
              natPrint 19 ++ '.' :: pad2 99 from by decide]
      _ = jsRound (JSNum.mulHundred (JSNum.num (roundDouble (((1999:ℤ):ℚ) / 100)))) := by
          rw [parseFloatChars_digits_frac 19 99 (by norm_num)]
          norm_num
      _ = JSNum.num ((1999 : ℤ) : ℚ) := centsRound 1999 (by decide)
      _ = JSNum.num 1999 := by norm_num

/-- Witness for C3: the three currency facts at concrete products. -/
theorem C3_currency_safe_witness :
    (ProductMapper.toViewModel
      ⟨"p1", "W", JSNum.num 1999, ⟨"c1", "T"⟩, "/i"⟩).price = "$19.99" ∧
    (ProductMapper.toDomainModel
      ⟨"p1", "W", "$19.99", ⟨"c1", "T"⟩, "/i"⟩).price_cents = JSNum.num 1999 ∧
    ProductMapper.toDomainModel (ProductMapper.toViewModel
      ⟨"p2", "X", JSNum.num ((250 : ℤ) : ℚ), ⟨"c2", "U"⟩, "/j"⟩) =
      ⟨"p2", "X", JSNum.num ((250 : ℤ) : ℚ), ⟨"c2", "U"⟩, "/j"⟩ :=
  C3_currency_safe _ _ _ 250 rfl rfl rfl (by decide)

/-- Claim C4: mapping an array of nested records preserves length and order
in both directions: for `ProjectMapper` over `tasks` and the user-management
`UserMapper` over `roles`, the output array has the same length and its
element at every index is the nested mapper applied to the input element at
that index. -/
theorem C4_sequence_mapping (pd : ProjectDomainModel) (pv : ProjectViewModel)
    (ud : UserMgmt.UserDomainModel) (uv : UserMgmt.UserViewModel) :
    ((ProjectMapper.toViewModel pd).tasks.length = pd.tasks.length ∧
      ∀ i : ℕ, (ProjectMapper.toViewModel pd).tasks[i]? =
        (pd.tasks[i]?).map TaskMapper.toViewModel) ∧
    ((ProjectMapper.toDomainModel pv).tasks.length = pv.tasks.length ∧
      ∀ i : ℕ, (ProjectMapper.toDomainModel pv).tasks[i]? =
        (pv.tasks[i]?).map TaskMapper.toDomainModel) ∧
    ((UserMgmt.UserMapper.toViewModel ud).roles.length = ud.roles.length ∧
      ∀ i : ℕ, (UserMgmt.UserMapper.toViewModel ud).roles[i]? =
        (ud.roles[i]?).map UserMgmt.RoleMapper.toViewModel) ∧
    ((UserMgmt.UserMapper.toDomainModel uv).roles.length = uv.roles.length ∧
      ∀ i : ℕ, (UserMgmt.UserMapper.toDomainModel uv).roles[i]? =
        (uv.roles[i]?).map UserMgmt.RoleMapper.toDomainModel) := by
  refine ⟨⟨?_, fun i => ?_⟩, ⟨?_, fun i => ?_⟩, ⟨?_, fun i => ?_⟩, ⟨?_, fun i => ?_⟩⟩ <;>
    simp [ProjectMapper.toViewModel, ProjectMapper.toDomainModel,
      UserMgmt.UserMapper.toViewModel, UserMgmt.UserMapper.toDomainModel,
      List.getElem?_map]

/-- Claim C5: the optional attachment is null-preserving in both directions:
a null or absent domain attachment maps to a null view attachment, a present
domain attachment maps to the present mapped view attachment, and
`toDomainModel` (on a view whose `sentAt` is a valid Date) preserves a null
view attachment as null and a present one as the inverse-mapped record. -/
theorem C5_optional_attachment (d0 d1 da : MessageDomainModel)
    (a : AttachmentDomainModel) (v0 v1 : MessageViewModel) (av : AttachmentViewModel)
    (t u : Int)
    (h0 : d0.attachment = .null) (h1 : d1.attachment = .undef)
    (ha : da.attachment = .val a)
    (hv0 : v0.attachment = .null) (hs0 : v0.sentAt = ⟨some t⟩)
    (hv1 : v1.attachment = .val av) (hs1 : v1.sentAt = ⟨some u⟩) :
    (MessageMapper.toViewModel d0).attachment = .null ∧
    (MessageMapper.toViewModel d1).attachment = .null ∧
    (MessageMapper.toViewModel da).attachment = .val (AttachmentMapper.toViewModel a) ∧
    (∃ d, MessageMapper.toDomainModel v0 = .ok d ∧ d.attachment = .null) ∧
    (∃ d, MessageMapper.toDomainModel v1 = .ok d ∧
      d.attachment = .val (AttachmentMapper.toDomainModel av)) := by
  obtain ⟨i0, s0, x0, sa0, at0⟩ := v0
  obtain ⟨i1, s1, x1, sa1, at1⟩ := v1
  simp only at hv0 hs0 hv1 hs1
  subst hv0
  subst hs0
  subst hv1
  subst hs1
  refine ⟨?_, ?_, ?_, ⟨_, rfl, rfl⟩, ⟨_, rfl, rfl⟩⟩
  · simp only [MessageMapper.toViewModel, h0]
  · simp only [MessageMapper.toViewModel, h1]
  · simp only [MessageMapper.toViewModel, ha]

/-- Witness for C5: null preservation at concrete messages. -/
theorem C5_optional_attachment_witness :
    (MessageMapper.toViewModel ⟨"m1", "ann", "hi", "x", .null⟩).attachment = .null ∧
    (MessageMapper.toViewModel ⟨"m2", "bob", "yo", "x", .undef⟩).attachment = .null ∧
    (MessageMapper.toViewModel
      ⟨"m3", "cat", "pic", "x", .val ⟨"a1", "/img.png", "image"⟩⟩).attachment =
      .val (AttachmentMapper.toViewModel ⟨"a1", "/img.png", "image"⟩) ∧
    (∃ d, MessageMapper.toDomainModel ⟨"m1", "ann", "hi", ⟨some 0⟩, .null⟩ = .ok d ∧
      d.attachment = .null) ∧
    (∃ d, MessageMapper.toDomainModel
        ⟨"m3", "cat", "pic", ⟨some 0⟩, .val ⟨"a1", "/img.png", "image"⟩⟩ = .ok d ∧
      d.attachment = .val (AttachmentMapper.toDomainModel ⟨"a1", "/img.png", "image"⟩)) :=
  C5_optional_attachment _ _ _ _ _ _ _ 0 0 rfl rfl rfl rfl rfl rfl rfl

/-- Claim C6: `toViewModel` never throws on a shape-conforming input: for an
arbitrary string in the date field and an arbitrary number (NaN included) in
`price_cents`, it returns a fully populated view record — the date field
becomes null or some `Date` value, and the price is the formatted
`toFixed(2)` string. -/
theorem C6_toViewModel_total (i tx : String) (c : Bool) (s : Option String)
    (pid pn : String) (x : JSNum) (cat : CategoryDomainModel) (u : String) :
    (∃ v : TodoViewModel, TodoMapper.toViewModel ⟨i, tx, c, s⟩ = v ∧
      (v.dueDate = none ∨ ∃ dt : JSDate, v.dueDate = some dt)) ∧
    (∃ w : ProductViewModel, ProductMapper.toViewModel ⟨pid, pn, x, cat, u⟩ = w ∧
      w.price = ⟨'$' :: toFixed2 (JSNum.divHundred x)⟩) := by
  refine ⟨⟨_, rfl, ?_⟩, ⟨_, rfl, rfl⟩⟩
  cases (TodoMapper.toViewModel ⟨i, tx, c, s⟩).dueDate with
  | none => exact Or.inl rfl
  | some dt => exact Or.inr ⟨dt, rfl⟩

/-- Claim C8: every mapper operation is a pure function of its argument:
the embedding is state-free (there is no state type anywhere in the mappers'
signatures), so two invocations on equal inputs yield equal outputs. -/
theorem C8_deterministic (d1 d2 : TodoDomainModel) (v1 v2 : TodoViewModel)
    (p1 p2 : ProductDomainModel) (hd : d1 = d2) (hv : v1 = v2) (hp : p1 = p2) :
    TodoMapper.toViewModel d1 = TodoMapper.toViewModel d2 ∧
    TodoMapper.toDomainModel v1 = TodoMapper.toDomainModel v2 ∧
    ProductMapper.toViewModel p1 = ProductMapper.toViewModel p2 :=
  ⟨congrArg _ hd, congrArg _ hv, congrArg _ hp⟩

/-- Witness for C8: determinism at concrete records. -/
theorem C8_deterministic_witness :
    TodoMapper.toViewModel ⟨"t1", "x", false, none⟩ =
      TodoMapper.toViewModel ⟨"t1", "x", false, none⟩ ∧
    TodoMapper.toDomainModel ⟨"t1", "x", false, none⟩ =
      TodoMapper.toDomainModel ⟨"t1", "x", false, none⟩ ∧
    ProductMapper.toViewModel ⟨"p1", "W", JSNum.nan, ⟨"c1", "T"⟩, "/i"⟩ =
      ProductMapper.toViewModel ⟨"p1", "W", JSNum.nan, ⟨"c1", "T"⟩, "/i"⟩ :=
  C8_deterministic _ _ _ _ _ _ rfl rfl rfl

/-- Claim C9: the `due_date` test is truthiness, not a null check: a domain
record whose `due_date` is the empty string (a non-null string) maps to a
null view `dueDate`, and the round trip returns `due_date` null — not the
original empty string, so the result differs from the input. -/
theorem C9_truthiness_empty_string (d : TodoDomainModel) (h : d.due_date = some "") :
    (TodoMapper.toViewModel d).dueDate = none ∧
    TodoMapper.toDomainModel (TodoMapper.toViewModel d) =
      .ok { d with due_date := none } ∧
    (.ok { d with due_date := none } : Except String TodoDomainModel) ≠ .ok d := by
  obtain ⟨i, tx, c, dd⟩ := d
  simp only at h
  subst h
  refine ⟨?_, ?_, ?_⟩
  · simp only [TodoMapper.toViewModel,
      if_neg (fun hne : ¬ ("" : String) = "" => hne rfl)]
  · simp only [TodoMapper.toViewModel, TodoMapper.toDomainModel,
      if_neg (fun hne : ¬ ("" : String) = "" => hne rfl)]
  · intro he
    simp only [Except.ok.injEq, TodoDomainModel.mk.injEq] at he
    exact Option.noConfusion he.2.2.2

/-- Witness for C9: the empty-string due date at a concrete record. -/
theorem C9_truthiness_empty_string_witness :
    (TodoMapper.toViewModel ⟨"t1", "x", false, some ""⟩).dueDate = none ∧
    TodoMapper.toDomainModel (TodoMapper.toViewModel ⟨"t1", "x", false, some ""⟩) =
      .ok { (⟨"t1", "x", false, some ""⟩ : TodoDomainModel) with due_date := none } ∧
    (.ok { (⟨"t1", "x", false, some ""⟩ : TodoDomainModel) with due_date := none } :
      Except String TodoDomainModel) ≠ .ok ⟨"t1", "x", false, some ""⟩ :=
  C9_truthiness_empty_string ⟨"t1", "x", false, some ""⟩ rfl

/-- Claim C10: `toDomainModel` is not total over the declared view shape:
a view record whose Date field holds an Invalid Date (time value NaN) makes
`toISOString` throw a `RangeError`, for `TodoMapper` and `MessageMapper`
alike. -/
theorem C10_invalid_date_throws (v : TodoViewModel) (w : MessageViewModel)
    (hv : v.dueDate = some ⟨none⟩) (hw : w.sentAt = ⟨none⟩) :
    TodoMapper.toDomainModel v = .error "RangeError: Invalid time value" ∧
    MessageMapper.toDomainModel w = .error "RangeError: Invalid time value" := by
  constructor
  · obtain ⟨i, tx, c, dd⟩ := v
    simp only at hv
    subst hv
    rfl
  · obtain ⟨i, se, tx, sa, att⟩ := w
    simp only at hw
    subst hw
    rfl

/-- Witness for C10: the thrown `RangeError` at concrete view records. -/
theorem C10_invalid_date_throws_witness :
    TodoMapper.toDomainModel ⟨"t1", "x", false, some ⟨none⟩⟩ =
      .error "RangeError: Invalid time value" ∧
    MessageMapper.toDomainModel ⟨"m1", "ann", "hi", ⟨none⟩, .null⟩ =
      .error "RangeError: Invalid time value" :=
  C10_invalid_date_throws _ _ rfl rfl
